import Mathlib

/-!
Verification of the session archive (export/import) layer and the library
save operation of the Fatygoras application.

The embedding models the TypeScript sources:
- src/services/geminiService.ts : sanitizeFilename, addSessionToZip,
  exportSessionToZip, exportCollectionToZip, extractSessionFromFolder,
  importLibraryFromZip.
- src/components/SessionManager.tsx : saveToLibrary.

A ZIP archive is modelled as a list of (path, file) writes where a later
write to the same path overwrites an earlier one, matching JSZip's
behaviour of keeping one entry per name with the last content written.
JavaScript string primitives used by the code (toLowerCase restricted to
ASCII as it is only ever applied to ASCII data here, startsWith, includes,
endsWith, split on a slash, first-occurrence replace, trim) are modelled
explicitly on the character lists underlying Lean strings.
-/

/-- Characters kept by the sanitize regex [^a-z0-9]/gi, i.e. ASCII
letters and digits. -/
def keepAlnum (c : Char) : Bool :=
  (97 ≤ c.toNat && c.toNat ≤ 122) ||
  (65 ≤ c.toNat && c.toNat ≤ 90) ||
  (48 ≤ c.toNat && c.toNat ≤ 57)

/-- Model of JavaScript toLowerCase on the ASCII range: uppercase letters
are shifted down by 32, everything else is unchanged. -/
def jsToLower (c : Char) : Char :=
  if 65 ≤ c.toNat && c.toNat ≤ 90 then Char.ofNat (c.toNat + 32) else c

/-- Model of String.prototype.toLowerCase for the ASCII data handled by
the archive layer. -/
def strLower (s : String) : String :=
  ⟨s.data.map jsToLower⟩

/-- Source: geminiService.ts sanitizeFilename:
name.replace(/[^a-z0-9]/gi, g).toLowerCase() with g the underscore:
every character outside the kept class is replaced, then the result is
lower-cased. -/
def sanitizeFilename (name : String) : String :=
  strLower ⟨name.data.map (fun c => if keepAlnum c then c else '_')⟩

/-- Model of JavaScript String.prototype.startsWith. -/
def strHasStart (s pat : String) : Bool :=
  s.data.take pat.data.length == pat.data

/-- Model of JavaScript String.prototype.endsWith, via reversed takes. -/
def strHasEnd (s pat : String) : Bool :=
  pat.data.reverse == s.data.reverse.take pat.data.length

/-- Model of JavaScript String.prototype.includes (substring search). -/
def listHasSub (pat : List Char) : List Char → Bool
  | [] => pat.isEmpty
  | c :: rest => ((c :: rest).take pat.length == pat) || listHasSub pat rest

/-- Model of JavaScript String.prototype.includes on strings. -/
def strHasSub (s pat : String) : Bool :=
  listHasSub pat.data s.data

/-- Replace the first occurrence of pat by repl, the semantics of
JavaScript String.prototype.replace with a plain-string pattern. -/
def replFirst (pat repl : List Char) : List Char → List Char
  | [] => if pat.isEmpty then repl else []
  | c :: rest =>
    if (c :: rest).take pat.length == pat then
      repl ++ (c :: rest).drop pat.length
    else
      c :: replFirst pat repl rest

/-- String version of first-occurrence replacement. -/
def strReplFirst (s pat repl : String) : String :=
  ⟨replFirst pat.data repl.data s.data⟩

/-- Model of JavaScript String.prototype.split with separator the slash
character: every occurrence separates, empty segments are kept. -/
def splitSlash : List Char → List (List Char)
  | [] => [[]]
  | c :: rest =>
    if c == '/' then [] :: splitSlash rest
    else
      match splitSlash rest with
      | [] => [[c]]
      | h :: t => (c :: h) :: t

/-- String version of the slash split. -/
def strSplitSlash (s : String) : List String :=
  (splitSlash s.data).map (fun l => ⟨l⟩)

/-- Model of Array.prototype.join with a slash separator. -/
def joinSlash : List String → String
  | [] => ""
  | [x] => x
  | x :: y :: rest => x ++ "/" ++ joinSlash (y :: rest)

/-- ASCII whitespace test for the trim model. -/
def isWsChar (c : Char) : Bool :=
  c == ' ' || c == '\t' || c == '\n' || c == '\r'

/-- Model of JavaScript String.prototype.trim on ASCII whitespace. -/
def jsTrim (s : String) : String :=
  ⟨((s.data.dropWhile isWsChar).reverse.dropWhile isWsChar).reverse⟩

/-- Model of substring(0, 6) used to truncate whiteboard ids. -/
def strTakePre (s : String) (n : Nat) : String :=
  ⟨s.data.take n⟩

/-- Decidable equality of Except values, for concrete evaluation of
extraction and import results. -/
instance exceptDecEq {ε α : Type} [DecidableEq ε] [DecidableEq α] :
    DecidableEq (Except ε α) := fun x y =>
  match x, y with
  | .ok a, .ok b =>
    match decEq a b with
    | isTrue h => isTrue (by rw [h])
    | isFalse h => isFalse (by intro hh; cases hh; exact h rfl)
  | .ok _, .error _ => isFalse (by intro h; cases h)
  | .error _, .ok _ => isFalse (by intro h; cases h)
  | .error e, .error f =>
    match decEq e f with
    | isTrue h => isTrue (by rw [h])
    | isFalse h => isFalse (by intro hh; cases hh; exact h rfl)

/-! ## Data model (src/services/prompts.ts type declarations) -/

/-- Themes are carried opaquely by the archive layer. -/
abbrev AppTheme := String

/-- Model identifiers are carried opaquely by the archive layer. -/
abbrev GeminiModel := String

/-- Chat roles from the ChatMessage interface. -/
inductive ChatRole where
  | user
  | model
deriving DecidableEq, BEq

/-- ChatMessage record. -/
structure ChatMessage where
  id : String
  role : ChatRole
  content : String
  timestamp : Int
deriving DecidableEq, BEq

/-- WhiteboardData record. -/
structure WhiteboardData where
  id : String
  topic : String
  svgContent : String
  explanation : String
  timestamp : Int
deriving DecidableEq, BEq

/-- Loading status of a playground. -/
inductive PgStatus where
  | loading
  | ready
  | error
deriving DecidableEq, BEq

/-- Practice/test distinction of a playground. -/
inductive PgType where
  | practice
  | test
deriving DecidableEq, BEq

/-- PlaygroundCode record; relatedTopic and the generation model are
optional fields, absent on records rebuilt by the importer. -/
structure PlaygroundCode where
  id : String
  html : String
  description : String
  timestamp : Int
  status : PgStatus
  type : PgType
  relatedTopic : Option String
  genModel : Option GeminiModel
deriving DecidableEq, BEq

/-- A whiteboard entry of ExportedSessionManifest. -/
structure ManifestWhiteboardEntry where
  id : String
  topic : String
  explanation : String
  timestamp : Int
  filePath : String
deriving DecidableEq, BEq

/-- A playgrounds-array entry of ExportedSessionManifest. The timestamp
is optional in old manifests; none models an absent JSON field. -/
structure ManifestPlaygroundEntry where
  id : String
  description : String
  timestamp : Option Int
  filePath : String
deriving DecidableEq, BEq

/-- The legacy singular playground field of pre-1.1 manifests. -/
structure LegacyPlayground where
  description : String
  filePath : String
deriving DecidableEq, BEq

/-- Parsed JSON document shape of a session manifest, covering the
current schema (playgrounds array) and the legacy singular playground. -/
structure ManifestDoc where
  version : String
  createdAt : Int
  theme : AppTheme
  model : GeminiModel
  chatHistory : List ChatMessage
  whiteboards : List ManifestWhiteboardEntry
  playgrounds : Option (List ManifestPlaygroundEntry)
  playground : Option LegacyPlayground
deriving DecidableEq, BEq

/-! ## ZIP archive model -/

/-- Contents of one archived file. A file whose bytes parse as a manifest
document is modelled by the json constructor; any other text by text, so
that JSON.parse of a manifest file succeeds exactly on json entries. -/
inductive FileData where
  | text : String → FileData
  | json : ManifestDoc → FileData
deriving DecidableEq, BEq

/-- Reading a file as raw text (file.async with a string type). Manifest
documents are only ever read back as structured data by the code under
study, so their raw-text reading is immaterial and modelled as empty. -/
def FileData.asText : FileData → String
  | .text s => s
  | .json _ => ""

/-- An archive: the sequence of (path, content) writes used to build it. -/
abbrev Zip := List (String × FileData)

/-- Look up a path: the last write to the path wins, matching JSZip
overwrite semantics. -/
def zipGet : Zip → String → Option FileData
  | [], _ => none
  | e :: rest, p =>
    match zipGet rest p with
    | some v => some v
    | none => if e.1 == p then some e.2 else none

/-- First-occurrence deduplication of a path list. -/
def dedupKeys (seen : List String) : List String → List String
  | [] => []
  | p :: rest =>
    if seen.contains p then dedupKeys seen rest
    else p :: dedupKeys (p :: seen) rest

/-- Names enumerated by zip.forEach: each stored entry once, in first
write order. -/
def zipKeys (z : Zip) : List String :=
  dedupKeys [] (z.map Prod.fst)

/-! ## Export path (geminiService.ts) -/

/-- Filename derived for a whiteboard inside the whiteboards folder. -/
def wbFileName (wb : WhiteboardData) : String :=
  sanitizeFilename wb.topic ++ "_" ++ strTakePre wb.id 6 ++ ".svg"

/-- Filename derived for a playground inside the playgrounds folder. -/
def pgFileName (pg : PlaygroundCode) : String :=
  sanitizeFilename pg.description ++ "_" ++ pg.id ++ ".html"

/-- Manifest whiteboard entry built by addSessionToZip. -/
def wbManifestEntry (wb : WhiteboardData) : ManifestWhiteboardEntry :=
  { id := wb.id
    topic := wb.topic
    explanation := wb.explanation
    timestamp := wb.timestamp
    filePath := "whiteboards/" ++ wbFileName wb }

/-- Manifest playground entry built by addSessionToZip. -/
def pgManifestEntry (pg : PlaygroundCode) : ManifestPlaygroundEntry :=
  { id := pg.id
    description := pg.description
    timestamp := some pg.timestamp
    filePath := "playgrounds/" ++ pgFileName pg }

/-- The manifest document serialized by addSessionToZip: version 1.1,
creation time, settings, chat history and the two entry tables. -/
def sessionManifest (whiteboards : List WhiteboardData)
    (chatHistory : List ChatMessage) (playgrounds : List PlaygroundCode)
    (theme : AppTheme) (model : GeminiModel) (now : Int) : ManifestDoc :=
  { version := "1.1"
    createdAt := now
    theme := theme
    model := model
    chatHistory := chatHistory
    whiteboards := whiteboards.map wbManifestEntry
    playgrounds := some (playgrounds.map pgManifestEntry)
    playground := none }

/-- Source: geminiService.ts addSessionToZip. Writes every whiteboard
file, every playground file, then the manifest, under the given folder
prefix (the empty string for the archive root, or a folder path ending
in a slash as produced by zip.folder). -/
def addSessionToZip (root : String) (whiteboards : List WhiteboardData)
    (chatHistory : List ChatMessage) (playgrounds : List PlaygroundCode)
    (theme : AppTheme) (model : GeminiModel) (now : Int) : Zip :=
  whiteboards.map
      (fun wb => (root ++ ("whiteboards/" ++ wbFileName wb),
                  FileData.text wb.svgContent))
    ++ playgrounds.map
      (fun pg => (root ++ ("playgrounds/" ++ pgFileName pg),
                  FileData.text pg.html))
    ++ [(root ++ "session_manifest.json",
         FileData.json (sessionManifest whiteboards chatHistory playgrounds
           theme model now))]

/-- Source: geminiService.ts exportSessionToZip: a fresh archive holding
one session at the root. -/
def exportSessionToZip (whiteboards : List WhiteboardData)
    (chatHistory : List ChatMessage) (playgrounds : List PlaygroundCode)
    (theme : AppTheme) (model : GeminiModel) (now : Int) : Zip :=
  addSessionToZip "" whiteboards chatHistory playgrounds theme model now

/-- One named session handed to exportCollectionToZip. -/
structure NamedSession where
  name : String
  group : Option String
  whiteboards : List WhiteboardData
  chatHistory : List ChatMessage
  playgrounds : List PlaygroundCode
  theme : AppTheme
  model : GeminiModel
deriving DecidableEq, BEq

/-- Folder path chosen by exportCollectionToZip for one session. -/
def sessionFolderPath (s : NamedSession) : String :=
  match s.group with
  | some g => sanitizeFilename g ++ "/" ++ sanitizeFilename s.name
  | none => sanitizeFilename s.name

/-- Source: geminiService.ts exportCollectionToZip: each session is
packaged under its own folder of one shared archive. -/
def exportCollectionToZip (sessions : List NamedSession) (now : Int) : Zip :=
  sessions.foldr
    (fun s acc =>
      addSessionToZip (sessionFolderPath s ++ "/") s.whiteboards
        s.chatHistory s.playgrounds s.theme s.model now ++ acc)
    []

/-! ## Import path (geminiService.ts) -/

/-- Result record of a single-session extraction. -/
structure ImportedSessionResult where
  whiteboards : List WhiteboardData
  chatHistory : List ChatMessage
  playgrounds : List PlaygroundCode
  theme : AppTheme
  model : GeminiModel
  name : Option String
  group : Option String
deriving DecidableEq, BEq

/-- The test/practice fallback heuristic applied to a description. -/
def pgIsTest (description : String) : Bool :=
  strHasSub (strLower description) "level test" ||
  strHasStart (strLower description) "test:"

/-- Timestamp recovery for a playgrounds-array entry:
pgItem.timestamp falls back to the import clock when the field is
absent or zero (a JavaScript falsy check). -/
def recoverPgTimestamp (ts : Option Int) (now : Int) : Int :=
  match ts with
  | some t => if t == 0 then now else t
  | none => now

/-- The resolve-or-empty policy of geminiService.ts
extractSessionFromFolder: read the file as text when present, else
substitute the empty string. -/
def resolveText (z : Zip) (fullPath : String) : String :=
  match zipGet z fullPath with
  | some f => f.asText
  | none => ""

/-- The whiteboard record rebuilt from one manifest entry, with the
resolve-or-empty policy for its referenced file. -/
def extractWb (z : Zip) (rootPath : String)
    (wbItem : ManifestWhiteboardEntry) : WhiteboardData :=
  { id := wbItem.id
    topic := wbItem.topic
    svgContent := resolveText z (rootPath ++ wbItem.filePath)
    explanation := wbItem.explanation
    timestamp := wbItem.timestamp }

/-- The playground record rebuilt from one playgrounds-array entry. -/
def extractPgItem (z : Zip) (rootPath : String) (now : Int)
    (pgItem : ManifestPlaygroundEntry) : PlaygroundCode :=
  { id := pgItem.id
    description := pgItem.description
    timestamp := recoverPgTimestamp pgItem.timestamp now
    html := resolveText z (rootPath ++ pgItem.filePath)
    status := .ready
    type := if pgIsTest pgItem.description then .test else .practice
    relatedTopic := none
    genModel := none }

/-- The playground list rebuilt from a manifest: the playgrounds array
when present, otherwise the legacy singular playground, which is kept
only when its referenced file exists. -/
def extractPgList (z : Zip) (rootPath : String) (now : Int)
    (manifest : ManifestDoc) : List PlaygroundCode :=
  match manifest.playgrounds with
  | some pgItems => pgItems.map (extractPgItem z rootPath now)
  | none =>
    match manifest.playground with
    | some pg =>
      match zipGet z (rootPath ++ pg.filePath) with
      | some htmlFile =>
        [{ id := "legacy"
           description := pg.description
           timestamp := now
           html := htmlFile.asText
           status := .ready
           type := .practice
           relatedTopic := none
           genModel := none }]
      | none => []
    | none => []

/-- Source: geminiService.ts extractSessionFromFolder. Reads the
manifest at rootPath, rebuilds whiteboards and playgrounds with a
resolve-or-empty policy for referenced files, handles the legacy
singular playground, and fails only when the manifest is missing or
does not parse. -/
def extractSessionFromFolder (z : Zip) (rootPath : String) (now : Int) :
    Except String ImportedSessionResult :=
  match zipGet z (rootPath ++ "session_manifest.json") with
  | none => .error ("Manifest not found in " ++ rootPath)
  | some (.text _) => .error "JSON parse failure"
  | some (.json manifest) =>
    .ok { whiteboards := manifest.whiteboards.map (extractWb z rootPath)
          chatHistory := manifest.chatHistory
          playgrounds := extractPgList z rootPath now manifest
          theme := manifest.theme
          model := manifest.model
          name := none
          group := none }

/-- Name and group derivation applied to each recovered session from its
rootPath, with the archive filename as the zero-segment fallback. -/
def deriveNameGroup (fileName rootPath : String) : String × Option String :=
  let parts := (strSplitSlash rootPath).filter (fun p => !p.data.isEmpty)
  match parts with
  | [] => (strReplFirst fileName ".zip" "", none)
  | [p] => (p, none)
  | ps => (ps.getLastD "", some (joinSlash ps.dropLast))

/-- The per-manifest loop of importLibraryFromZip: extraction failures
are caught and skipped, successes are named and collected in order. -/
def importLoop (fileName : String) (z : Zip) (now : Int) :
    List String → List ImportedSessionResult
  | [] => []
  | path :: rest =>
    let rootPath := strReplFirst path "session_manifest.json" ""
    (match extractSessionFromFolder z rootPath now with
     | .ok session =>
       let ng := deriveNameGroup fileName rootPath
       [{ session with name := some ng.1, group := ng.2 }]
     | .error _ => []) ++ importLoop fileName z now rest

/-- Source: geminiService.ts importLibraryFromZip: scan for manifest
files, fail when none exists, otherwise run the best-effort loop. -/
def importLibraryFromZip (fileName : String) (z : Zip) (now : Int) :
    Except String (List ImportedSessionResult) :=
  let manifestPaths :=
    (zipKeys z).filter (fun p => strHasEnd p "session_manifest.json")
  if manifestPaths.isEmpty then
    .error "No valid session manifests found in ZIP."
  else
    .ok (importLoop fileName z now manifestPaths)

/-! ## Library save path (SessionManager.tsx) -/

/-- SavedSessionMetadata record (the library index entry). -/
structure SavedSessionMetadata where
  id : String
  name : String
  group : Option String
  timestamp : Int
  topicCount : Nat
deriving DecidableEq, BEq

/-- Serialized payload of one saved session. -/
structure SessionData where
  whiteboards : List WhiteboardData
  chatHistory : List ChatMessage
  playgrounds : List PlaygroundCode
  theme : AppTheme
  model : GeminiModel
deriving DecidableEq, BEq

/-- Values held by the key-value store: either one session payload or
the library index list. -/
inductive StoreVal where
  | payload : SessionData → StoreVal
  | index : List SavedSessionMetadata → StoreVal
deriving DecidableEq, BEq

/-- The key-value store (browser localStorage). -/
abbrev Store := List (String × StoreVal)

/-- localStorage.getItem. -/
def storeGet : Store → String → Option StoreVal
  | [], _ => none
  | e :: rest, k => if e.1 == k then some e.2 else storeGet rest k

/-- A successful localStorage.setItem: overwrite or append the key. -/
def storeSet (st : Store) (k : String) (v : StoreVal) : Store :=
  (k, v) :: st.filter (fun e => !(e.1 == k))

/-- Storage key of the library index, from constants.ts as recorded in
the repository README. -/
def libraryIndexKey : String := "ai_teacher_library_index"

/-- Storage key prefix of saved session payloads, from constants.ts as
recorded in the repository README. -/
def libraryDataKeyPre : String := "ai_teacher_lib_data_"

/-- Component state touched by saveToLibrary: the store, the in-memory
index mirror, the two name fields and the error banner. -/
structure SaveState where
  store : Store
  savedSessions : List SavedSessionMetadata
  saveName : String
  saveGroup : String
  error : Option String
deriving DecidableEq, BEq

/-- Source: SessionManager.tsx saveToLibrary. The quota behaviour of the
store is abstracted by the fits oracle: a write succeeds when fits
accepts the store, key and value, and raises otherwise. The payload is
written first; the index write and the state updates happen only if the
payload write succeeded; any raise is caught and sets the error
banner. -/
def saveToLibrary (fits : Store → String → StoreVal → Bool)
    (st : SaveState) (newId : String) (whiteboards : List WhiteboardData)
    (chatHistory : List ChatMessage) (playgrounds : List PlaygroundCode)
    (theme : AppTheme) (model : GeminiModel) (now : Int) : SaveState :=
  if (jsTrim st.saveName).isEmpty then st
  else
    let metadata : SavedSessionMetadata :=
      { id := newId
        name := jsTrim st.saveName
        group := if (jsTrim st.saveGroup).isEmpty then none
                 else some (jsTrim st.saveGroup)
        timestamp := now
        topicCount := whiteboards.length }
    let sessionData : SessionData :=
      { whiteboards := whiteboards
        chatHistory := chatHistory
        playgrounds := playgrounds
        theme := theme
        model := model }
    let payloadKey := libraryDataKeyPre ++ newId
    if fits st.store payloadKey (.payload sessionData) then
      let store1 := storeSet st.store payloadKey (.payload sessionData)
      let newIndex := st.savedSessions ++ [metadata]
      if fits store1 libraryIndexKey (.index newIndex) then
        { st with
          store := storeSet store1 libraryIndexKey (.index newIndex)
          savedSessions := newIndex
          saveName := "" }
      else
        { st with
          store := store1
          error := some "Storage full. Cannot save session locally." }
    else
      { st with
        error := some "Storage full. Cannot save session locally." }

/-- The record produced by the importer for a playgrounds-array entry
that was exported from the given playground with a nonzero timestamp:
content fields survive, status is reset to ready, the kind is recomputed
from the description heuristic, and the optional fields are absent. -/
def importRebuiltPg (pg : PlaygroundCode) : PlaygroundCode :=
  { pg with
    status := .ready
    type := if pgIsTest pg.description then .test else .practice
    relatedTopic := none
    genModel := none }

/-- Following the spec sentence for sanitize: lower-case the string,
then replace every character outside the class a-z, 0-9 with an
underscore. Stated for comparison with sanitizeFilename. -/
def sanitizeSpecOrder (s : String) : String :=
  ⟨(s.data.map jsToLower).map (fun c =>
    if (97 ≤ c.toNat && c.toNat ≤ 122) || (48 ≤ c.toNat && c.toNat ≤ 57)
    then c else '_')⟩

/-- Following the claim wording for the zero-segment import name: the
archive filename minus its extension, read as stripping a trailing
".zip". Stated for comparison with the code behaviour. -/
def fileNameMinusExt (s : String) : String :=
  if strHasEnd s ".zip" then ⟨s.data.take (s.data.length - 4)⟩ else s

/-- Fixture for the single-session round-trip instance: a whiteboard. -/
def c1wb : WhiteboardData :=
  { id := "wb1id", topic := "Topic A", svgContent := "<svg>A</svg>"
    explanation := "why", timestamp := 10 }

/-- Fixture for the single-session round-trip instance: a playground
whose kind agrees with the description heuristic. -/
def c1pg : PlaygroundCode :=
  { id := "pg1id", html := "<html>A</html>", description := "quiz"
    timestamp := 5, status := .ready, type := .practice
    relatedTopic := none, genModel := none }

/-- Fixture refuting kind preservation: a test playground whose
description matches neither heuristic pattern. -/
def c1pgX : PlaygroundCode :=
  { id := "pgXid", html := "<html>X</html>", description := "quiz"
    timestamp := 5, status := .ready, type := .test
    relatedTopic := none, genModel := none }

/-- Fixture manifest with no content entries, for import naming
instances. -/
def c3man : ManifestDoc :=
  { version := "1.1", createdAt := 0, theme := "t", model := "m"
    chatHistory := [], whiteboards := [], playgrounds := some []
    playground := none }

/-- The session recovered from c3man under a two-level root path. -/
def c3res : ImportedSessionResult :=
  { whiteboards := [], chatHistory := [], playgrounds := []
    theme := "t", model := "m"
    name := some "calculus", group := some "math" }

/-- Fixture manifest for the partial-failure package. -/
def c6man : ManifestDoc :=
  { version := "1.1", createdAt := 0, theme := "light", model := "m2"
    chatHistory := [], whiteboards := [], playgrounds := some []
    playground := none }

/-- A two-session package whose second manifest is unparseable. -/
def c6zip : Zip :=
  [("alpha/session_manifest.json", FileData.json c6man),
   ("beta/session_manifest.json", FileData.text "corrupt")]

/-- The single session recovered from c6zip. -/
def c6res : ImportedSessionResult :=
  { whiteboards := [], chatHistory := [], playgrounds := []
    theme := "light", model := "m2"
    name := some "alpha", group := none }

/-- Fixture legacy manifest whose referenced playground file is
absent. -/
def c5man : ManifestDoc :=
  { version := "1.0", createdAt := 0, theme := "t5", model := "m5"
    chatHistory := [], whiteboards := [], playgrounds := none
    playground := some { description := "old app"
                         filePath := "playgrounds/x.html" } }

/-- Fixture manifest whose whiteboard and playground entries reference
absent files. -/
def c5man2 : ManifestDoc :=
  { version := "1.1", createdAt := 0, theme := "t5b", model := "m5b"
    chatHistory := []
    whiteboards := [{ id := "w1", topic := "tp", explanation := "ex"
                      timestamp := 3, filePath := "whiteboards/w.svg" }]
    playgrounds := some [{ id := "p1", description := "dd"
                           timestamp := some 4
                           filePath := "playgrounds/p.html" }]
    playground := none }

/-- The archive holding only the c5man2 manifest. -/
def c5zip2 : Zip := [("session_manifest.json", FileData.json c5man2)]

/-- Fixture legacy manifest, used to show the dropped-record shape. -/
def c7man : ManifestDoc :=
  { version := "1.0", createdAt := 0, theme := "t7", model := "m7"
    chatHistory := [], whiteboards := [], playgrounds := none
    playground := some { description := "ancient"
                         filePath := "playgrounds/a.html" } }

/-- Fixture manifest with two playgrounds-array entries, one matching
the test heuristic and one not. -/
def c7man2 : ManifestDoc :=
  { version := "1.1", createdAt := 0, theme := "t7b", model := "m7b"
    chatHistory := [], whiteboards := []
    playgrounds := some
      [{ id := "pA", description := "Test: algebra", timestamp := some 2
         filePath := "playgrounds/a.html" },
       { id := "pB", description := "plain drill", timestamp := some 3
         filePath := "playgrounds/b.html" }]
    playground := none }

/-- The archive holding the c7man2 manifest alone. -/
def c7zip2 : Zip := [("session_manifest.json", FileData.json c7man2)]

/-- Fixture manifest exercising absent, zero and nonzero playground
timestamps. -/
def c10man : ManifestDoc :=
  { version := "1.1", createdAt := 0, theme := "tX", model := "mX"
    chatHistory := [], whiteboards := []
    playgrounds := some
      [{ id := "q1", description := "one", timestamp := none
         filePath := "playgrounds/1.html" },
       { id := "q2", description := "two", timestamp := some 0
         filePath := "playgrounds/2.html" },
       { id := "q3", description := "three", timestamp := some 7
         filePath := "playgrounds/3.html" }]
    playground := none }

/-- The archive holding the c10man manifest alone. -/
def c10zip : Zip := [("session_manifest.json", FileData.json c10man)]

/-- Quota oracle that rejects exactly the library index key, forcing
the save to fail between its two writes. -/
def c9fits : Store → String → StoreVal → Bool :=
  fun _ k _ => !(k == libraryIndexKey)

/-- Component state before the save attempt. -/
def c9st : SaveState :=
  { store := [], savedSessions := [], saveName := " My Sess "
    saveGroup := "", error := none }

/-- Fixture session named with a lower-case letter. -/
def c2sesA : NamedSession :=
  { name := "a", group := none, whiteboards := [], chatHistory := []
    playgrounds := [], theme := "t", model := "m" }

/-- Fixture session whose distinct name sanitizes identically. -/
def c2sesB : NamedSession :=
  { name := "A", group := none, whiteboards := [], chatHistory := []
    playgrounds := [], theme := "u", model := "n" }

/-- Fixture session for the isolation witness. -/
def c2sesC : NamedSession :=
  { name := "alpha", group := none
    whiteboards := [{ id := "wC", topic := "tc", svgContent := "<svg/>"
                      explanation := "e", timestamp := 1 }]
    chatHistory := [], playgrounds := [], theme := "tc", model := "mc" }

/-- Second fixture session for the isolation witness. -/
def c2sesD : NamedSession :=
  { name := "beta", group := some "year1", whiteboards := []
    chatHistory := []
    playgrounds := [{ id := "pD", html := "<html/>"
                      description := "drill", timestamp := 6
                      status := .ready, type := .practice
                      relatedTopic := none, genModel := none }]
    theme := "td", model := "md" }

/-! ## General lemmas about the string model -/

lemma strEq_of_data {s t : String} (h : s.data = t.data) : s = t := by
  cases s; cases t; cases h; rfl

lemma strAppend_right_inj (a : String) {b c : String}
    (h : a ++ b = a ++ c) : b = c := by
  apply strEq_of_data
  have hd := congrArg String.data h
  simp only [String.data_append] at hd
  exact List.append_cancel_left hd

lemma toNat_char_ofNat_of_le {n : Nat} (h : n ≤ 122) :
    (Char.ofNat n).toNat = n := by
  rw [Char.ofNat, dif_pos (Or.inl (by omega))]
  rfl

lemma toNat_jsToLower (c : Char) :
    (jsToLower c).toNat =
      if 65 ≤ c.toNat ∧ c.toNat ≤ 90 then c.toNat + 32 else c.toNat := by
  unfold jsToLower
  by_cases h : 65 ≤ c.toNat ∧ c.toNat ≤ 90
  · rw [if_pos h]
    have hb : (decide (65 ≤ c.toNat) && decide (c.toNat ≤ 90)) = true := by
      simp [h.1, h.2]
    rw [if_pos hb]
    exact toNat_char_ofNat_of_le (by omega)
  · rw [if_neg h]
    have hb : (decide (65 ≤ c.toNat) && decide (c.toNat ≤ 90)) = false := by
      rcases Decidable.not_and_iff_or_not.mp h with h1 | h1 <;> simp [h1]
    rw [if_neg (by simp [hb])]

lemma charEq_iff_toNat {c d : Char} : c = d ↔ c.toNat = d.toNat := by
  constructor
  · intro h; rw [h]
  · intro h
    apply Char.ext
    have hv : c.val.toNat = d.val.toNat := h
    exact UInt32.toNat.inj hv

lemma sanitize_chars (s : String) :
    ∀ c ∈ (sanitizeFilename s).data,
      (97 ≤ c.toNat ∧ c.toNat ≤ 122) ∨ (48 ≤ c.toNat ∧ c.toNat ≤ 57) ∨
        c = '_' := by
  intro c hc
  simp only [sanitizeFilename, strLower, List.map_map, List.mem_map] at hc
  obtain ⟨a, _, ha⟩ := hc
  subst ha
  simp only [Function.comp]
  by_cases hk : keepAlnum a = true
  · rw [if_pos hk]
    unfold keepAlnum at hk
    simp only [Bool.or_eq_true, Bool.and_eq_true, decide_eq_true_eq] at hk
    rw [toNat_jsToLower]
    rcases hk with (h1 | h1) | h1
    · rw [if_neg (by omega)]; left; omega
    · rw [if_pos (by omega)]; left; omega
    · rw [if_neg (by omega)]; right; left; omega
  · rw [if_neg hk]
    right; right
    rw [charEq_iff_toNat, toNat_jsToLower]
    have h95 : ('_').toNat = 95 := rfl
    rw [if_neg (by omega)]

lemma sanitize_no_slash (s : String) : '/' ∉ (sanitizeFilename s).data := by
  intro h
  have h47 : ('/').toNat = 47 := rfl
  rcases sanitize_chars s '/' h with h1 | h1 | h1
  · omega
  · omega
  · exact absurd h1 (by decide)

lemma sanitize_no_dot (s : String) : '.' ∉ (sanitizeFilename s).data := by
  intro h
  have h46 : ('.').toNat = 46 := rfl
  rcases sanitize_chars s '.' h with h1 | h1 | h1
  · omega
  · omega
  · exact absurd h1 (by decide)

/-! ## Lemmas about the archive lookup -/

lemma zipGet_append (xs ys : Zip) (p : String) :
    zipGet (xs ++ ys) p =
      match zipGet ys p with
      | some v => some v
      | none => zipGet xs p := by
  induction xs with
  | nil =>
    simp only [List.nil_append]
    cases h : zipGet ys p <;> simp [zipGet, h]
  | cons e xs ih =>
    have hstep : zipGet ((e :: xs) ++ ys) p =
        (match zipGet (xs ++ ys) p with
         | some v => some v
         | none => if e.1 == p then some e.2 else none) := rfl
    rw [hstep, ih]
    cases h : zipGet ys p <;> rfl

lemma zipGet_none_of_all_ne (z : Zip) (p : String)
    (h : ∀ e ∈ z, e.1 ≠ p) : zipGet z p = none := by
  induction z with
  | nil => rfl
  | cons e rest ih =>
    have h1 : e.1 ≠ p := h e (List.mem_cons_self e rest)
    rw [zipGet, ih (fun x hx => h x (List.mem_cons_of_mem _ hx))]
    simp [h1]

lemma zipGet_map_of_mem {α : Type} (l : List α) (pf : α → String)
    (cf : α → FileData) (x : α) (hx : x ∈ l) (hn : (l.map pf).Nodup) :
    zipGet (l.map (fun y => (pf y, cf y))) (pf x) = some (cf x) := by
  induction l with
  | nil => cases hx
  | cons a l ih =>
    rw [List.map_cons] at hn ⊢
    rcases List.mem_cons.mp hx with rfl | hx2
    · have hnone : zipGet (l.map (fun y => (pf y, cf y))) (pf x) = none := by
        apply zipGet_none_of_all_ne
        intro e he
        rcases List.mem_map.mp he with ⟨y, hy, rfl⟩
        intro hcontra
        exact (List.nodup_cons.mp hn).1 (hcontra ▸ List.mem_map_of_mem pf hy)
      rw [zipGet, hnone]
      simp
    · rw [zipGet, ih hx2 (List.nodup_cons.mp hn).2]

lemma zipGet_last (xs : Zip) (q : String) (v : FileData) :
    zipGet (xs ++ [(q, v)]) q = some v := by
  rw [zipGet_append]
  simp [zipGet]

/-! ## Lemmas about suffix testing -/

lemma strHasEnd_append_self (r pat : String) :
    strHasEnd (r ++ pat) pat = true := by
  unfold strHasEnd
  rw [String.data_append, List.reverse_append,
    List.take_left' (by simp)]
  exact beq_self_eq_true _

lemma head?_take_of_ne_zero {α : Type} {l : List α} {n : Nat} (hn : n ≠ 0) :
    (l.take n).head? = l.head? := by
  cases l <;> cases n <;> simp_all [List.take]

lemma strHasEnd_false_of_getLast (s pat : String) (c d : Char)
    (hc : s.data.getLast? = some c) (hd : pat.data.getLast? = some d)
    (hne : d ≠ c) : strHasEnd s pat = false := by
  unfold strHasEnd
  apply beq_eq_false_iff_ne.mpr
  intro h
  have hlen : pat.data.length ≠ 0 := by
    intro h0
    rw [List.length_eq_zero.mp h0] at hd
    cases hd
  have h1 := congrArg List.head? h
  rw [List.head?_reverse, head?_take_of_ne_zero hlen, List.head?_reverse,
    hc, hd] at h1
  exact hne (Option.some.inj h1)

lemma data_getLast?_append (s t : String) (c : Char)
    (h : t.data.getLast? = some c) : (s ++ t).data.getLast? = some c := by
  rw [String.data_append, List.getLast?_append, h]
  rfl

/-! ## Lemmas about key enumeration and path structure -/

lemma dedupKeys_eq_self (l : List String) :
    ∀ seen : List String, l.Nodup → (∀ p ∈ l, p ∉ seen) →
      dedupKeys seen l = l := by
  induction l with
  | nil => intro seen _ _; rfl
  | cons p rest ih =>
    intro seen hn hs
    have hc : seen.contains p = false := by
      cases hcc : seen.contains p
      · rfl
      · exact absurd (List.elem_iff.mp hcc)
          (hs p (List.mem_cons_self p rest))
    rw [dedupKeys, hc]
    simp only [Bool.false_eq_true, if_false]
    congr 1
    apply ih (p :: seen) (List.nodup_cons.mp hn).2
    intro q hq
    rw [List.mem_cons]
    rintro (rfl | hq2)
    · exact (List.nodup_cons.mp hn).1 hq
    · exact hs q (List.mem_cons_of_mem _ hq) hq2

lemma sep_append_inj {u v : List Char} :
    ∀ {a b : List Char}, '/' ∉ a → '/' ∉ b →
      a ++ '/' :: u = b ++ '/' :: v → a = b ∧ u = v := by
  intro a
  induction a with
  | nil =>
    intro b _ hb h
    cases b with
    | nil => simpa using h
    | cons d bs =>
      simp only [List.nil_append, List.cons_append, List.cons.injEq] at h
      exact absurd h.1.symm (fun hd => hb (hd ▸ List.mem_cons_self d bs))
  | cons c as ih =>
    intro b ha hb h
    cases b with
    | nil =>
      simp only [List.cons_append, List.nil_append, List.cons.injEq] at h
      exact absurd h.1 (fun hd => ha (hd ▸ List.mem_cons_self c as))
    | cons d bs =>
      simp only [List.cons_append, List.cons.injEq] at h
      obtain ⟨rfl, h2⟩ := h
      have hrec := ih (fun hx => ha (List.mem_cons_of_mem _ hx))
        (fun hx => hb (List.mem_cons_of_mem _ hx)) h2
      exact ⟨by rw [hrec.1], hrec.2⟩

lemma rooted_path_ne {a b : String} (x y : String)
    (ha : '/' ∉ a.data) (hb : '/' ∉ b.data) (hne : a ≠ b) :
    a ++ "/" ++ x ≠ b ++ "/" ++ y := by
  intro h
  have hd := congrArg String.data h
  simp only [String.data_append] at hd
  rw [List.append_assoc, List.append_assoc] at hd
  have hsep : a.data ++ '/' :: x.data = b.data ++ '/' :: y.data := hd
  exact hne (strEq_of_data (sep_append_inj ha hb hsep).1)

lemma splitSlash_append_slash {l : List Char} (h : '/' ∉ l) :
    splitSlash (l ++ ['/']) = [l, []] := by
  induction l with
  | nil => rfl
  | cons c cs ih =>
    have hc : (c == '/') = false :=
      beq_eq_false_iff_ne.mpr (fun hx => h (hx ▸ List.mem_cons_self c cs))
    have ihx := ih (fun hx => h (List.mem_cons_of_mem _ hx))
    simp only [List.cons_append, splitSlash, hc, Bool.false_eq_true, if_false,
      List.append_eq, ihx]

lemma strSplitSlash_root (r : String) (h : '/' ∉ r.data) :
    strSplitSlash (r ++ "/") = [r, ""] := by
  unfold strSplitSlash
  rw [String.data_append]
  have : ("/" : String).data = ['/'] := rfl
  rw [this, splitSlash_append_slash h]
  rfl


lemma replFirst_self_append (pat : List Char) (hpat : pat ≠ []) :
    ∀ pre : List Char,
      (∀ i, i < pre.length →
        ((pre ++ pat).drop i).take pat.length ≠ pat) →
      replFirst pat [] (pre ++ pat) = pre := by
  intro pre
  induction pre with
  | nil =>
    intro _
    rw [List.nil_append]
    cases pat with
    | nil => exact absurd rfl hpat
    | cons c rest =>
      rw [replFirst,
        if_pos (by rw [List.take_length]; exact beq_self_eq_true _)]
      simp [List.drop_length]
  | cons c cs ih =>
    intro h
    have h0 := h 0 (by simp)
    rw [List.cons_append, List.drop_zero] at h0
    rw [List.cons_append, replFirst, if_neg (by simpa using h0)]
    congr 1
    apply ih
    intro i hi
    have hsucc := h (i + 1) (by simpa using Nat.succ_lt_succ hi)
    rw [List.cons_append, List.drop_succ_cons] at hsucc
    exact hsucc

lemma manifest_no_early_match (r : List Char) (hdot : '.' ∉ r) :
    ∀ i, i < (r ++ ['/']).length →
      (((r ++ ['/']) ++ "session_manifest.json".data).drop i).take
          ("session_manifest.json".data).length ≠
        "session_manifest.json".data := by
  intro i hi h
  have hlen : ("session_manifest.json".data).length = 21 := by decide
  have hwin : ∀ j, j < 21 →
      ("session_manifest.json".data)[j]? =
        ((r ++ ['/']) ++ "session_manifest.json".data)[i + j]? := by
    intro j hj
    conv_lhs => rw [← h]
    rw [List.getElem?_take_of_lt (by omega), List.getElem?_drop]
  by_cases hcase : i + 16 < r.length
  · have h16 : ("session_manifest.json".data)[16]? = some '.' := by decide
    have hx := hwin 16 (by omega)
    rw [h16, List.getElem?_append_left (by simp; omega),
      List.getElem?_append_left (by omega)] at hx
    rcases List.getElem?_eq_some_iff.mp hx.symm with ⟨hb, hval⟩
    exact hdot (hval ▸ List.getElem_mem hb)
  · have hxlt : r.length - i < 21 := by
      simp only [List.length_append, List.length_cons, List.length_nil] at hi
      omega
    have hx := hwin (r.length - i) hxlt
    have hidx : i + (r.length - i) = r.length := by
      simp only [List.length_append, List.length_cons, List.length_nil] at hi
      omega
    rw [hidx] at hx
    have hsl : ((r ++ ['/']) ++ "session_manifest.json".data)[r.length]? =
        some '/' := by
      rw [List.getElem?_append_left (by simp),
        List.getElem?_append_right (Nat.le_refl _)]
      simp
    rw [hsl] at hx
    rcases List.getElem?_eq_some_iff.mp hx with ⟨hb, hval⟩
    have hno : '/' ∉ "session_manifest.json".data := by decide
    exact hno (hval ▸ List.getElem_mem hb)

lemma strReplFirst_manifest_root (r : String) (hdot : '.' ∉ r.data) :
    strReplFirst (r ++ "/" ++ "session_manifest.json")
      "session_manifest.json" "" = r ++ "/" := by
  apply strEq_of_data
  show replFirst "session_manifest.json".data []
      (r ++ "/" ++ "session_manifest.json").data = (r ++ "/").data
  have hdata : (r ++ "/" ++ "session_manifest.json").data =
      (r.data ++ ['/']) ++ "session_manifest.json".data := by
    simp [String.data_append]
  have hdata2 : (r ++ "/").data = r.data ++ ['/'] := by
    simp [String.data_append]
  rw [hdata, hdata2]
  exact replFirst_self_append _ (by decide) _ (manifest_no_early_match r.data hdot)

/-! ## Lookup facts about exported archives -/

lemma strAppend_ne_of_ne {x y : String} (h : x ≠ y) (root : String) :
    root ++ x ≠ root ++ y :=
  fun hc => h (strAppend_right_inj root hc)

lemma wb_ne_manifest (x : String) :
    ("whiteboards/" ++ x : String) ≠ "session_manifest.json" := by
  intro h
  have hd := congrArg String.data h
  rw [String.data_append] at hd
  have h1 : 'w' :: ("hiteboards/".data ++ x.data) =
      "session_manifest.json".data := hd
  injection h1 with h2 _
  exact absurd h2 (by decide)

lemma pg_ne_manifest (x : String) :
    ("playgrounds/" ++ x : String) ≠ "session_manifest.json" := by
  intro h
  have hd := congrArg String.data h
  rw [String.data_append] at hd
  have h1 : 'p' :: ("laygrounds/".data ++ x.data) =
      "session_manifest.json".data := hd
  injection h1 with h2 _
  exact absurd h2 (by decide)

lemma wb_ne_pg (x y : String) :
    ("whiteboards/" ++ x : String) ≠ "playgrounds/" ++ y := by
  intro h
  have hd := congrArg String.data h
  rw [String.data_append, String.data_append] at hd
  have h1 : 'w' :: ("hiteboards/".data ++ x.data) =
      'p' :: ("laygrounds/".data ++ y.data) := hd
  injection h1 with h2 _
  exact absurd h2 (by decide)

lemma zipGet_addSession_manifest (root : String)
    (wbs : List WhiteboardData) (ch : List ChatMessage)
    (pgs : List PlaygroundCode) (th : AppTheme) (mo : GeminiModel)
    (t : Int) :
    zipGet (addSessionToZip root wbs ch pgs th mo t)
        (root ++ "session_manifest.json") =
      some (.json (sessionManifest wbs ch pgs th mo t)) := by
  unfold addSessionToZip
  exact zipGet_last _ _ _

lemma zipGet_addSession_wb (root : String)
    (wbs : List WhiteboardData) (ch : List ChatMessage)
    (pgs : List PlaygroundCode) (th : AppTheme) (mo : GeminiModel)
    (t : Int) (hw : (wbs.map wbFileName).Nodup)
    (wb : WhiteboardData) (hwb : wb ∈ wbs) :
    zipGet (addSessionToZip root wbs ch pgs th mo t)
        (root ++ ("whiteboards/" ++ wbFileName wb)) =
      some (.text wb.svgContent) := by
  unfold addSessionToZip
  rw [zipGet_append]
  have hman : zipGet
      [(root ++ "session_manifest.json",
        FileData.json (sessionManifest wbs ch pgs th mo t))]
      (root ++ ("whiteboards/" ++ wbFileName wb)) = none := by
    apply zipGet_none_of_all_ne
    intro e he
    rcases List.mem_singleton.mp he with rfl
    exact fun hc =>
      wb_ne_manifest (wbFileName wb) (strAppend_right_inj root hc).symm
  rw [hman]
  rw [zipGet_append]
  have hpgn : zipGet
      (pgs.map fun pg => (root ++ ("playgrounds/" ++ pgFileName pg),
        FileData.text pg.html))
      (root ++ ("whiteboards/" ++ wbFileName wb)) = none := by
    apply zipGet_none_of_all_ne
    intro e he
    rcases List.mem_map.mp he with ⟨pg, _, rfl⟩
    exact fun hc =>
      wb_ne_pg (wbFileName wb) (pgFileName pg)
        (strAppend_right_inj root hc.symm)
  rw [hpgn]
  exact zipGet_map_of_mem wbs _ _ wb hwb
    (by
      have hcomp : wbs.map
          (fun y => root ++ ("whiteboards/" ++ wbFileName y)) =
          (wbs.map wbFileName).map
            (fun fn => root ++ ("whiteboards/" ++ fn)) := by
        rw [List.map_map]; rfl
      rw [hcomp]
      exact hw.map (fun a b hab =>
        strAppend_right_inj _ (strAppend_right_inj root hab)))

lemma zipGet_addSession_pg (root : String)
    (wbs : List WhiteboardData) (ch : List ChatMessage)
    (pgs : List PlaygroundCode) (th : AppTheme) (mo : GeminiModel)
    (t : Int) (hp : (pgs.map pgFileName).Nodup)
    (pg : PlaygroundCode) (hpg : pg ∈ pgs) :
    zipGet (addSessionToZip root wbs ch pgs th mo t)
        (root ++ ("playgrounds/" ++ pgFileName pg)) =
      some (.text pg.html) := by
  unfold addSessionToZip
  rw [zipGet_append]
  have hman : zipGet
      [(root ++ "session_manifest.json",
        FileData.json (sessionManifest wbs ch pgs th mo t))]
      (root ++ ("playgrounds/" ++ pgFileName pg)) = none := by
    apply zipGet_none_of_all_ne
    intro e he
    rcases List.mem_singleton.mp he with rfl
    exact fun hc => pg_ne_manifest (pgFileName pg)
      (strAppend_right_inj root hc.symm)
  rw [hman]
  rw [zipGet_append]
  have hmem : zipGet
      (pgs.map fun y => (root ++ ("playgrounds/" ++ pgFileName y),
        FileData.text y.html))
      (root ++ ("playgrounds/" ++ pgFileName pg)) =
      some (.text pg.html) := by
    exact zipGet_map_of_mem pgs _ _ pg hpg
      (by
        have hcomp : pgs.map
            (fun y => root ++ ("playgrounds/" ++ pgFileName y)) =
            (pgs.map pgFileName).map
              (fun fn => root ++ ("playgrounds/" ++ fn)) := by
          rw [List.map_map]; rfl
        rw [hcomp]
        exact hp.map (fun a b hab =>
          strAppend_right_inj _ (strAppend_right_inj root hab)))
  rw [hmem]

lemma extractWb_of_export (z : Zip) (root : String) (wb : WhiteboardData)
    (h : zipGet z (root ++ ("whiteboards/" ++ wbFileName wb)) =
      some (.text wb.svgContent)) :
    extractWb z root (wbManifestEntry wb) = wb := by
  unfold extractWb wbManifestEntry resolveText
  simp only []
  rw [h]
  rfl

lemma extractPgItem_of_export (z : Zip) (root : String) (now : Int)
    (pg : PlaygroundCode)
    (h : zipGet z (root ++ ("playgrounds/" ++ pgFileName pg)) =
      some (.text pg.html)) (hts : pg.timestamp ≠ 0) :
    extractPgItem z root now (pgManifestEntry pg) = importRebuiltPg pg := by
  unfold extractPgItem pgManifestEntry resolveText importRebuiltPg
  simp only []
  rw [h]
  have hbeq : (pg.timestamp == 0) = false := beq_eq_false_iff_ne.mpr hts
  simp only [recoverPgTimestamp, hbeq, Bool.false_eq_true, if_false]
  rfl

lemma extract_of_lookups (z : Zip) (root : String) (now : Int)
    (wbs : List WhiteboardData) (ch : List ChatMessage)
    (pgs : List PlaygroundCode) (th : AppTheme) (mo : GeminiModel)
    (tE : Int)
    (hm : zipGet z (root ++ "session_manifest.json") =
      some (.json (sessionManifest wbs ch pgs th mo tE)))
    (hwb : ∀ wb ∈ wbs,
      zipGet z (root ++ ("whiteboards/" ++ wbFileName wb)) =
        some (.text wb.svgContent))
    (hpg : ∀ pg ∈ pgs,
      zipGet z (root ++ ("playgrounds/" ++ pgFileName pg)) =
        some (.text pg.html))
    (hts : ∀ pg ∈ pgs, pg.timestamp ≠ 0) :
    extractSessionFromFolder z root now =
      .ok { whiteboards := wbs, chatHistory := ch,
            playgrounds := pgs.map importRebuiltPg,
            theme := th, model := mo, name := none, group := none } := by
  simp only [extractSessionFromFolder, hm]
  have hwbs : (sessionManifest wbs ch pgs th mo tE).whiteboards.map
      (extractWb z root) = wbs := by
    show (wbs.map wbManifestEntry).map (extractWb z root) = wbs
    rw [List.map_map]
    calc wbs.map (extractWb z root ∘ wbManifestEntry)
        = wbs.map id :=
          List.map_congr_left (fun wb hmem =>
            extractWb_of_export z root wb (hwb wb hmem))
      _ = wbs := List.map_id wbs
  have hpgs : extractPgList z root now
      (sessionManifest wbs ch pgs th mo tE) = pgs.map importRebuiltPg := by
    show (pgs.map pgManifestEntry).map (extractPgItem z root now) = _
    rw [List.map_map]
    exact List.map_congr_left (fun pg hmem =>
      extractPgItem_of_export z root now pg (hpg pg hmem) (hts pg hmem))
  rw [hwbs, hpgs]
  rfl

/-! ## Claim C1 -/

/-- Claim C1 (amended): extracting the session from the package produced
by single-session export at root path returns the whiteboards, chat
history, theme and model unchanged, and returns every playground with
id, description, timestamp and html unchanged, provided the derived
whiteboard filenames are pairwise distinct, the derived playground
filenames are pairwise distinct, and every playground timestamp is
nonzero; playground status is reset to ready and the kind is recomputed
from the description heuristic rather than preserved. -/
theorem c1_round_trip (wbs : List WhiteboardData) (ch : List ChatMessage)
    (pgs : List PlaygroundCode) (th : AppTheme) (mo : GeminiModel)
    (tE tI : Int)
    (hw : (wbs.map wbFileName).Nodup)
    (hp : (pgs.map pgFileName).Nodup)
    (hts : ∀ pg ∈ pgs, pg.timestamp ≠ 0) :
    extractSessionFromFolder (exportSessionToZip wbs ch pgs th mo tE)
        "" tI =
      .ok { whiteboards := wbs, chatHistory := ch,
            playgrounds := pgs.map importRebuiltPg,
            theme := th, model := mo, name := none, group := none } := by
  apply extract_of_lookups _ _ _ _ _ _ _ _ tE
  · exact zipGet_addSession_manifest "" wbs ch pgs th mo tE
  · exact fun wb hm => zipGet_addSession_wb "" wbs ch pgs th mo tE hw wb hm
  · exact fun pg hm => zipGet_addSession_pg "" wbs ch pgs th mo tE hp pg hm
  · exact hts

/-- Witness for c1_round_trip at a concrete bundle. -/
theorem c1_round_trip_witness :
    extractSessionFromFolder
        (exportSessionToZip [c1wb] [] [c1pg] "dark" "model-1" 99) "" 0 =
      .ok { whiteboards := [c1wb], chatHistory := [],
            playgrounds := [c1pg].map importRebuiltPg,
            theme := "dark", model := "model-1",
            name := none, group := none } :=
  c1_round_trip [c1wb] [] [c1pg] "dark" "model-1" 99 0
    (by decide) (by decide)
    (by intro pg hm; rcases List.mem_singleton.mp hm with rfl; decide)

/-- Counterexample to claim C1 as stated: a playground of kind test
whose description matches neither heuristic pattern comes back as
practice, so the kind does not survive the round trip. -/
theorem c1_kind_not_preserved :
    extractSessionFromFolder
        (exportSessionToZip [] [] [c1pgX] "t" "m" 5) "" 0 =
      .ok { whiteboards := [], chatHistory := [],
            playgrounds := [{ c1pgX with type := PgType.practice }],
            theme := "t", model := "m", name := none, group := none }
    ∧ c1pgX.type = PgType.test
    ∧ PgType.practice ≠ PgType.test := by
  refine ⟨by decide, by decide, by decide⟩

/-! ## Claim C8 -/

lemma jsToLower_id_of_not_upper (c : Char)
    (h : ¬(65 ≤ c.toNat ∧ c.toNat ≤ 90)) : jsToLower c = c := by
  unfold jsToLower
  rw [if_neg]
  simp only [Bool.and_eq_true, decide_eq_true_eq]
  exact h

lemma sanitize_pointwise (c : Char) :
    jsToLower (if keepAlnum c then c else '_') =
      if (97 ≤ (jsToLower c).toNat && (jsToLower c).toNat ≤ 122) ||
          (48 ≤ (jsToLower c).toNat && (jsToLower c).toNat ≤ 57)
      then jsToLower c else '_' := by
  by_cases hk : keepAlnum c = true
  · rw [if_pos hk]
    unfold keepAlnum at hk
    simp only [Bool.or_eq_true, Bool.and_eq_true, decide_eq_true_eq] at hk
    have hcond : ((97 ≤ (jsToLower c).toNat && (jsToLower c).toNat ≤ 122) ||
        (48 ≤ (jsToLower c).toNat && (jsToLower c).toNat ≤ 57)) = true := by
      simp only [Bool.or_eq_true, Bool.and_eq_true, decide_eq_true_eq,
        toNat_jsToLower]
      rcases hk with (h1 | h1) | h1
      · rw [if_neg (by omega)]; omega
      · rw [if_pos (by omega)]; omega
      · rw [if_neg (by omega)]; omega
    rw [hcond]
    rfl
  · rw [if_neg hk]
    have hkp : ¬((97 ≤ c.toNat ∧ c.toNat ≤ 122) ∨
        (65 ≤ c.toNat ∧ c.toNat ≤ 90) ∨ (48 ≤ c.toNat ∧ c.toNat ≤ 57)) := by
      intro hor
      apply hk
      unfold keepAlnum
      simp only [Bool.or_eq_true, Bool.and_eq_true, decide_eq_true_eq]
      omega
    have hnup : ¬(65 ≤ c.toNat ∧ c.toNat ≤ 90) := by omega
    have hjc : jsToLower c = c := jsToLower_id_of_not_upper c hnup
    have hcond : ((97 ≤ (jsToLower c).toNat && (jsToLower c).toNat ≤ 122) ||
        (48 ≤ (jsToLower c).toNat && (jsToLower c).toNat ≤ 57)) = false := by
      rw [hjc]
      simp only [Bool.or_eq_false_iff, Bool.and_eq_false_iff,
        decide_eq_false_iff_not, not_le]
      omega
    rw [hcond]
    simp only [Bool.false_eq_true, if_false]
    decide

/-- Claim C8: sanitizeFilename coincides with the spec reading that
lower-cases first and then replaces every character outside a-z, 0-9
with an underscore, and repeated calls agree. -/
theorem c8_sanitize_spec (s : String) :
    sanitizeFilename s = sanitizeSpecOrder s ∧
      sanitizeFilename s = sanitizeFilename s := by
  refine ⟨?_, rfl⟩
  apply strEq_of_data
  show ((s.data.map fun c => if keepAlnum c then c else '_').map jsToLower) =
    ((s.data.map jsToLower).map fun c =>
      if (97 ≤ c.toNat && c.toNat ≤ 122) || (48 ≤ c.toNat && c.toNat ≤ 57)
      then c else '_')
  rw [List.map_map, List.map_map]
  exact List.map_congr_left (fun c _ => sanitize_pointwise c)

/-! ## Claim C3 -/

lemma mem_importLoop (f : String) (z : Zip) (now : Int) :
    ∀ (paths : List String) (s : ImportedSessionResult),
      s ∈ importLoop f z now paths →
      ∃ p ∈ paths, ∃ sess,
        extractSessionFromFolder z
            (strReplFirst p "session_manifest.json" "") now = .ok sess ∧
        s = { sess with
              name := some (deriveNameGroup f
                (strReplFirst p "session_manifest.json" "")).1
              group := (deriveNameGroup f
                (strReplFirst p "session_manifest.json" "")).2 } := by
  intro paths
  induction paths with
  | nil => intro s hs; cases hs
  | cons p rest ih =>
    intro s hs
    rw [importLoop] at hs
    rcases List.mem_append.mp hs with hs1 | hs2
    · cases hx : extractSessionFromFolder z
          (strReplFirst p "session_manifest.json" "") now with
      | ok sess =>
        rw [hx] at hs1
        rcases List.mem_singleton.mp hs1 with rfl
        exact ⟨p, List.mem_cons_self p rest, sess, hx, rfl⟩
      | error e =>
        rw [hx] at hs1
        cases hs1
    · rcases ih s hs2 with ⟨q, hq, sess, hx, rfl⟩
      exact ⟨q, List.mem_cons_of_mem _ hq, sess, hx, rfl⟩

/-- Claim C3 (amended): every imported session comes from one of the
manifest files discovered in the archive; the session is exactly the
extraction at the rootPath obtained by removing the trailing manifest
name from that file path; and its name and group are determined by the
filtered slash-split of that rootPath: zero segments give the archive
filename with the first occurrence of ".zip" removed (not, in general,
the filename minus its extension) and no group; one segment gives that
segment and no group; more segments give the last segment as name and
the preceding segments joined by "/" as group. -/
theorem c3_name_group_derivation (f : String) (z : Zip) (now : Int)
    (rs : List ImportedSessionResult)
    (hok : importLibraryFromZip f z now = .ok rs)
    (s : ImportedSessionResult) (hs : s ∈ rs) :
    ∃ p ∈ (zipKeys z).filter
        (fun q => strHasEnd q "session_manifest.json"),
      (∃ sess, extractSessionFromFolder z
          (strReplFirst p "session_manifest.json" "") now = .ok sess ∧
        s = { sess with
              name := some (deriveNameGroup f
                (strReplFirst p "session_manifest.json" "")).1
              group := (deriveNameGroup f
                (strReplFirst p "session_manifest.json" "")).2 }) ∧
      (match List.filter (fun q => !q.data.isEmpty)
          (strSplitSlash (strReplFirst p "session_manifest.json" "")) with
       | [] => s.name = some (strReplFirst f ".zip" "") ∧ s.group = none
       | [q] => s.name = some q ∧ s.group = none
       | qs => s.name = some (qs.getLastD "") ∧
               s.group = some (joinSlash qs.dropLast)) := by
  unfold importLibraryFromZip at hok
  by_cases hempty : ((zipKeys z).filter
      (fun p => strHasEnd p "session_manifest.json")).isEmpty
  · rw [if_pos hempty] at hok
    cases hok
  · rw [if_neg hempty] at hok
    have hrs : rs = importLoop f z now ((zipKeys z).filter
        (fun p => strHasEnd p "session_manifest.json")) :=
      (Except.ok.inj hok).symm
    subst hrs
    rcases mem_importLoop f z now _ s hs with ⟨p, hp, sess, hx, rfl⟩
    refine ⟨p, hp, ⟨sess, hx, rfl⟩, ?_⟩
    unfold deriveNameGroup
    cases hparts : (strSplitSlash
        (strReplFirst p "session_manifest.json" "")).filter
        (fun q => !q.data.isEmpty) with
    | nil => exact ⟨rfl, rfl⟩
    | cons q t =>
      cases t with
      | nil => exact ⟨rfl, rfl⟩
      | cons q2 t2 => exact ⟨rfl, rfl⟩

/-- Counterexample to claim C3 as stated: for an archive named
a.zipx.zip with a root-level manifest, the import names the session
ax.zip (the first occurrence of ".zip" is removed wherever it appears),
not the filename minus its extension, a.zipx. -/
theorem c3_zero_segment_name_counterexample :
    importLibraryFromZip "a.zipx.zip"
        [("session_manifest.json", FileData.json c3man)] 0 =
      .ok [{ whiteboards := [], chatHistory := [], playgrounds := [],
             theme := "t", model := "m",
             name := some "ax.zip", group := none }]
    ∧ fileNameMinusExt "a.zipx.zip" = "a.zipx"
    ∧ ("ax.zip" : String) ≠ "a.zipx" := by
  refine ⟨by decide, by decide, by decide⟩

/-- Witness for c3_name_group_derivation on a two-level nested
package. -/
theorem c3_name_group_derivation_witness :
    ∃ p ∈ (zipKeys
        [("math/calculus/session_manifest.json",
          FileData.json c3man)]).filter
        (fun q => strHasEnd q "session_manifest.json"),
      (∃ sess, extractSessionFromFolder
          [("math/calculus/session_manifest.json", FileData.json c3man)]
          (strReplFirst p "session_manifest.json" "") 0 = .ok sess ∧
        c3res = { sess with
              name := some (deriveNameGroup "lib.zip"
                (strReplFirst p "session_manifest.json" "")).1
              group := (deriveNameGroup "lib.zip"
                (strReplFirst p "session_manifest.json" "")).2 }) ∧
      (match List.filter (fun q => !q.data.isEmpty)
          (strSplitSlash (strReplFirst p "session_manifest.json" "")) with
       | [] => c3res.name = some (strReplFirst "lib.zip" ".zip" "") ∧
               c3res.group = none
       | [q] => c3res.name = some q ∧ c3res.group = none
       | qs => c3res.name = some (qs.getLastD "") ∧
               c3res.group = some (joinSlash qs.dropLast)) :=
  c3_name_group_derivation "lib.zip"
    [("math/calculus/session_manifest.json", FileData.json c3man)] 0
    [c3res] (by decide) c3res (List.mem_singleton.mpr rfl)

/-! ## Claim C4 -/

/-- Claim C4 (amended): importLibraryFromZip fails exactly when the
package holds no file named session_manifest.json; when manifest files
exist but none parses, it silently returns an empty list instead of
failing. -/
theorem c4_error_iff_no_manifest_file (f : String) (z : Zip) (now : Int) :
    importLibraryFromZip f z now =
        .error "No valid session manifests found in ZIP." ↔
      (zipKeys z).filter (fun p => strHasEnd p "session_manifest.json")
        = [] := by
  unfold importLibraryFromZip
  by_cases hempty : ((zipKeys z).filter
      (fun p => strHasEnd p "session_manifest.json")).isEmpty
  · rw [if_pos hempty]
    simp [List.isEmpty_iff.mp hempty]
  · rw [if_neg hempty]
    constructor
    · intro h; cases h
    · intro h
      exact absurd (by rw [h]; rfl) hempty

/-- Counterexample to claim C4 as stated: a package whose only manifest
file is unparseable imports as an empty session list, with no error. -/
theorem c4_unparseable_silent_empty :
    importLibraryFromZip "f.zip"
        [("session_manifest.json", FileData.text "not json")] 0 = .ok []
    ∧ (zipKeys [("session_manifest.json", FileData.text "not json")]).filter
        (fun p => strHasEnd p "session_manifest.json") ≠ [] := by
  refine ⟨by decide, by decide⟩

/-! ## Claim C6 -/

lemma length_filter_not_compl {α : Type} (pred : α → Bool) (l : List α) :
    (l.filter pred).length + (l.filter (fun a => !(pred a))).length
      = l.length := by
  induction l with
  | nil => rfl
  | cons a l ih =>
    cases h : pred a <;>
      simp only [List.filter_cons, h, Bool.not_true, Bool.not_false,
        Bool.false_eq_true, Bool.true_eq_false, if_false, if_true,
        List.length_cons] <;>
      omega

lemma importLoop_length (f : String) (z : Zip) (now : Int) :
    ∀ paths : List String,
      (importLoop f z now paths).length =
        (paths.filter (fun p => (extractSessionFromFolder z
          (strReplFirst p "session_manifest.json" "") now).isOk)).length := by
  intro paths
  induction paths with
  | nil => rfl
  | cons p rest ih =>
    rw [importLoop]
    cases hx : extractSessionFromFolder z
        (strReplFirst p "session_manifest.json" "") now with
    | ok sess =>
      have hok : (extractSessionFromFolder z
          (strReplFirst p "session_manifest.json" "") now).isOk = true := by
        rw [hx]; rfl
      simp [ih, List.filter_cons, hok]
    | error e =>
      have hko : (extractSessionFromFolder z
          (strReplFirst p "session_manifest.json" "") now).isOk = false := by
        rw [hx]; rfl
      simp [ih, List.filter_cons, hko]

/-- Claim C6: when at least one manifest file is discovered, the import
never throws, and the number of returned sessions equals the number of
discovered manifest files minus those whose extraction failed. -/
theorem c6_partial_failure_count (f : String) (z : Zip) (now : Int)
    (hne : (zipKeys z).filter
      (fun p => strHasEnd p "session_manifest.json") ≠ []) :
    ∃ rs, importLibraryFromZip f z now = .ok rs ∧
      rs.length +
        (List.filter
          (fun p => !((extractSessionFromFolder z
            (strReplFirst p "session_manifest.json" "") now).isOk))
          ((zipKeys z).filter
            (fun p => strHasEnd p "session_manifest.json"))).length =
      ((zipKeys z).filter
        (fun p => strHasEnd p "session_manifest.json")).length := by
  refine ⟨importLoop f z now ((zipKeys z).filter
    (fun p => strHasEnd p "session_manifest.json")), ?_, ?_⟩
  · unfold importLibraryFromZip
    rw [if_neg (fun hx => hne (List.isEmpty_iff.mp hx))]
  · rw [importLoop_length]
    exact length_filter_not_compl _ _

/-- Witness for c6_partial_failure_count: a package with two session
directories, one holding an unparseable manifest, yields exactly one
recovered session while two manifests were discovered. -/
theorem c6_partial_failure_count_witness :
    (∃ rs, importLibraryFromZip "lib.zip" c6zip 0 = .ok rs ∧
      rs.length +
        (List.filter
          (fun p => !((extractSessionFromFolder c6zip
            (strReplFirst p "session_manifest.json" "") 0).isOk))
          ((zipKeys c6zip).filter
            (fun p => strHasEnd p "session_manifest.json"))).length =
      ((zipKeys c6zip).filter
        (fun p => strHasEnd p "session_manifest.json")).length)
    ∧ importLibraryFromZip "lib.zip" c6zip 0 = .ok [c6res]
    ∧ ((zipKeys c6zip).filter
        (fun p => strHasEnd p "session_manifest.json")).length = 2 :=
  ⟨c6_partial_failure_count "lib.zip" c6zip 0 (by decide),
   by decide, by decide⟩

/-! ## Claims C5, C7, C10 -/

lemma extract_ok_of_manifest (z : Zip) (r : String) (now : Int)
    (m : ManifestDoc)
    (hm : zipGet z (r ++ "session_manifest.json") = some (.json m)) :
    extractSessionFromFolder z r now =
      .ok { whiteboards := m.whiteboards.map (extractWb z r)
            chatHistory := m.chatHistory
            playgrounds := extractPgList z r now m
            theme := m.theme, model := m.model
            name := none, group := none } := by
  simp only [extractSessionFromFolder, hm]

/-- Claim C5 (amended): whenever the manifest parses, the session
imports successfully; a whiteboard or playgrounds-array entry whose
referenced file is absent is kept with empty content; the legacy
singular playground record, however, is dropped entirely when its file
is absent (the session still imports, with an empty playground list). -/
theorem c5_missing_file_policy (z : Zip) (r : String) (now : Int)
    (m : ManifestDoc)
    (hm : zipGet z (r ++ "session_manifest.json") = some (.json m)) :
    ∃ res, extractSessionFromFolder z r now = .ok res
      ∧ (∀ e ∈ m.whiteboards, zipGet z (r ++ e.filePath) = none →
          ({ id := e.id, topic := e.topic, svgContent := ""
             explanation := e.explanation, timestamp := e.timestamp } :
            WhiteboardData) ∈ res.whiteboards)
      ∧ (∀ pgItems, m.playgrounds = some pgItems → ∀ e ∈ pgItems,
          zipGet z (r ++ e.filePath) = none →
          ∃ rec, rec ∈ res.playgrounds ∧ rec.id = e.id ∧
            rec.description = e.description ∧ rec.html = "")
      ∧ (∀ pg, m.playgrounds = none → m.playground = some pg →
          zipGet z (r ++ pg.filePath) = none → res.playgrounds = []) := by
  refine ⟨_, extract_ok_of_manifest z r now m hm, ?_, ?_, ?_⟩
  · intro e he hnone
    show _ ∈ m.whiteboards.map (extractWb z r)
    have hrec : extractWb z r e =
        { id := e.id, topic := e.topic, svgContent := ""
          explanation := e.explanation, timestamp := e.timestamp } := by
      unfold extractWb resolveText
      rw [hnone]
    rw [← hrec]
    exact List.mem_map_of_mem (extractWb z r) he
  · intro pgItems hp e he hnone
    refine ⟨extractPgItem z r now e, ?_, rfl, rfl, ?_⟩
    · show _ ∈ extractPgList z r now m
      simp only [extractPgList, hp]
      exact List.mem_map_of_mem (extractPgItem z r now) he
    · unfold extractPgItem resolveText
      rw [hnone]
  · intro pg hpn hpl hnone
    show extractPgList z r now m = []
    simp only [extractPgList, hpn, hpl, hnone]

/-- Counterexample to claim C5 as stated: a legacy singular playground
whose referenced file is absent is dropped from the imported session
instead of being kept with empty content. -/
theorem c5_legacy_dropped_counterexample :
    extractSessionFromFolder
        [("session_manifest.json", FileData.json c5man)] "" 0 =
      .ok { whiteboards := [], chatHistory := [], playgrounds := [],
            theme := "t5", model := "m5", name := none, group := none }
    ∧ c5man.playground = some { description := "old app"
                                filePath := "playgrounds/x.html" }
    ∧ zipGet [("session_manifest.json", FileData.json c5man)]
        ("" ++ "playgrounds/x.html") = none := by
  refine ⟨by decide, by decide, by decide⟩

/-- Witness for c5_missing_file_policy on an archive missing both
referenced files. -/
theorem c5_missing_file_policy_witness :
    ∃ res, extractSessionFromFolder c5zip2 "" 7 = .ok res
      ∧ (∀ e ∈ c5man2.whiteboards,
          zipGet c5zip2 ("" ++ e.filePath) = none →
          ({ id := e.id, topic := e.topic, svgContent := ""
             explanation := e.explanation, timestamp := e.timestamp } :
            WhiteboardData) ∈ res.whiteboards)
      ∧ (∀ pgItems, c5man2.playgrounds = some pgItems → ∀ e ∈ pgItems,
          zipGet c5zip2 ("" ++ e.filePath) = none →
          ∃ rec, rec ∈ res.playgrounds ∧ rec.id = e.id ∧
            rec.description = e.description ∧ rec.html = "")
      ∧ (∀ pg, c5man2.playgrounds = none → c5man2.playground = some pg →
          zipGet c5zip2 ("" ++ pg.filePath) = none →
          res.playgrounds = []) :=
  c5_missing_file_policy c5zip2 "" 7 c5man2 (by decide)

/-- Claim C7 (amended): a manifest with the legacy singular playground
maps to a single-element list with the synthetic id "legacy" when the
referenced file is present, and to an empty list when it is absent; a
manifest with neither field yields an empty list, never an error; and
a playgrounds-array entry is reconstructed as a test exactly when its
lower-cased description contains "level test" or starts with "test:". -/
theorem c7_legacy_shapes_and_kind (z : Zip) (r : String) (now : Int)
    (m : ManifestDoc)
    (hm : zipGet z (r ++ "session_manifest.json") = some (.json m)) :
    ∃ res, extractSessionFromFolder z r now = .ok res
      ∧ (∀ pg, m.playgrounds = none → m.playground = some pg →
          (∀ s, zipGet z (r ++ pg.filePath) = some (.text s) →
            res.playgrounds =
              [{ id := "legacy", description := pg.description,
                 timestamp := now, html := s, status := .ready,
                 type := .practice, relatedTopic := none,
                 genModel := none }])
          ∧ (zipGet z (r ++ pg.filePath) = none → res.playgrounds = []))
      ∧ (m.playgrounds = none → m.playground = none →
          res.playgrounds = [])
      ∧ (∀ pgItems, m.playgrounds = some pgItems →
          res.playgrounds.length = pgItems.length ∧
          ∀ (i : Nat) (e : ManifestPlaygroundEntry) (rec : PlaygroundCode),
            pgItems[i]? = some e →
            res.playgrounds[i]? = some rec →
            (rec.type = .test ↔
              (strHasSub (strLower e.description) "level test" = true ∨
               strHasStart (strLower e.description) "test:" = true))) := by
  refine ⟨_, extract_ok_of_manifest z r now m hm, ?_, ?_, ?_⟩
  · intro pg hpn hpl
    constructor
    · intro s hfile
      show extractPgList z r now m = _
      simp only [extractPgList, hpn, hpl, hfile]
      rfl
    · intro hnone
      show extractPgList z r now m = []
      simp only [extractPgList, hpn, hpl, hnone]
  · intro hpn hpl
    show extractPgList z r now m = []
    simp only [extractPgList, hpn, hpl]
  · intro pgItems hp
    have hlist : extractPgList z r now m =
        pgItems.map (extractPgItem z r now) := by
      simp only [extractPgList, hp]
    constructor
    · show (extractPgList z r now m).length = _
      rw [hlist, List.length_map]
    · intro i e rec he hrec
      have hsome : (extractPgList z r now m)[i]? =
          some (extractPgItem z r now e) := by
        rw [hlist, List.getElem?_map, he]
        rfl
      have hrec2 : rec = extractPgItem z r now e :=
        Option.some.inj (hrec.symm.trans hsome)
      subst hrec2
      show (if pgIsTest e.description then PgType.test else PgType.practice)
          = PgType.test ↔ _
      cases hb : pgIsTest e.description with
      | true =>
        simp only [if_true]
        unfold pgIsTest at hb
        constructor
        · intro _
          exact (Bool.or_eq_true _ _).mp hb
        · intro _; trivial
      | false =>
        simp only [Bool.false_eq_true, if_false]
        unfold pgIsTest at hb
        rw [Bool.or_eq_false_iff] at hb
        constructor
        · intro hcontra; cases hcontra
        · intro hor
          rcases hor with h1 | h1
          · exact absurd h1 (by rw [hb.1]; exact Bool.false_ne_true)
          · exact absurd h1 (by rw [hb.2]; exact Bool.false_ne_true)

/-- Counterexample to claim C7 as stated: a manifest carrying the legacy
singular playground whose file is absent yields an empty playground
list, not a single-element list with a synthetic id. -/
theorem c7_legacy_missing_counterexample :
    extractSessionFromFolder
        [("session_manifest.json", FileData.json c7man)] "" 3 =
      .ok { whiteboards := [], chatHistory := [], playgrounds := [],
            theme := "t7", model := "m7", name := none, group := none }
    ∧ c7man.playgrounds = none
    ∧ c7man.playground = some { description := "ancient"
                                filePath := "playgrounds/a.html" } := by
  refine ⟨by decide, by decide, by decide⟩

/-- Witness for c7_legacy_shapes_and_kind on a two-entry manifest. -/
theorem c7_legacy_shapes_and_kind_witness :
    ∃ res, extractSessionFromFolder c7zip2 "" 8 = .ok res
      ∧ (∀ pg, c7man2.playgrounds = none → c7man2.playground = some pg →
          (∀ s, zipGet c7zip2 ("" ++ pg.filePath) = some (.text s) →
            res.playgrounds =
              [{ id := "legacy", description := pg.description,
                 timestamp := 8, html := s, status := .ready,
                 type := .practice, relatedTopic := none,
                 genModel := none }])
          ∧ (zipGet c7zip2 ("" ++ pg.filePath) = none →
              res.playgrounds = []))
      ∧ (c7man2.playgrounds = none → c7man2.playground = none →
          res.playgrounds = [])
      ∧ (∀ pgItems, c7man2.playgrounds = some pgItems →
          res.playgrounds.length = pgItems.length ∧
          ∀ (i : Nat) (e : ManifestPlaygroundEntry) (rec : PlaygroundCode),
            pgItems[i]? = some e →
            res.playgrounds[i]? = some rec →
            (rec.type = .test ↔
              (strHasSub (strLower e.description) "level test" = true ∨
               strHasStart (strLower e.description) "test:" = true))) :=
  c7_legacy_shapes_and_kind c7zip2 "" 8 c7man2 (by decide)

/-! ## Claim C10 -/

/-- Claim C10: a playgrounds-array entry whose manifest timestamp is
absent or zero receives the import clock as its timestamp, while a
nonzero stored timestamp is preserved. -/
theorem c10_timestamp_fallback (z : Zip) (r : String) (now : Int)
    (m : ManifestDoc) (pgItems : List ManifestPlaygroundEntry)
    (hm : zipGet z (r ++ "session_manifest.json") = some (.json m))
    (hp : m.playgrounds = some pgItems) :
    ∃ res, extractSessionFromFolder z r now = .ok res
      ∧ res.playgrounds.length = pgItems.length
      ∧ ∀ (i : Nat) (e : ManifestPlaygroundEntry) (rec : PlaygroundCode),
          pgItems[i]? = some e → res.playgrounds[i]? = some rec →
          ((e.timestamp = none ∨ e.timestamp = some 0) →
            rec.timestamp = now) ∧
          (∀ t : Int, e.timestamp = some t → t ≠ 0 →
            rec.timestamp = t) := by
  refine ⟨_, extract_ok_of_manifest z r now m hm, ?_, ?_⟩
  · show (extractPgList z r now m).length = _
    simp only [extractPgList, hp, List.length_map]
  · intro i e rec he hrec
    have hlist : extractPgList z r now m =
        pgItems.map (extractPgItem z r now) := by
      simp only [extractPgList, hp]
    have hsome : (extractPgList z r now m)[i]? =
        some (extractPgItem z r now e) := by
      rw [hlist, List.getElem?_map, he]
      rfl
    have hrec2 : rec = extractPgItem z r now e :=
      Option.some.inj (hrec.symm.trans hsome)
    subst hrec2
    constructor
    · intro hcase
      show recoverPgTimestamp e.timestamp now = now
      rcases hcase with h0 | h0 <;> rw [h0] <;> rfl
    · intro t ht htne
      show recoverPgTimestamp e.timestamp now = t
      rw [ht]
      show (if t == 0 then now else t) = t
      rw [if_neg]
      intro hb
      exact htne (by simpa using hb)

/-- Witness for c10_timestamp_fallback on absent, zero and nonzero
stored timestamps. -/
theorem c10_timestamp_fallback_witness :
    ∃ res, extractSessionFromFolder c10zip "" 42 = .ok res
      ∧ res.playgrounds.length =
          (c10man.playgrounds.getD []).length
      ∧ ∀ (i : Nat) (e : ManifestPlaygroundEntry) (rec : PlaygroundCode),
          (c10man.playgrounds.getD [])[i]? = some e →
          res.playgrounds[i]? = some rec →
          ((e.timestamp = none ∨ e.timestamp = some 0) →
            rec.timestamp = 42) ∧
          (∀ t : Int, e.timestamp = some t → t ≠ 0 →
            rec.timestamp = t) :=
  c10_timestamp_fallback c10zip "" 42 c10man
    (c10man.playgrounds.getD []) (by decide) (by decide)

/-! ## Claim C9 -/

lemma storeGet_set_eq (st : Store) (k : String) (v : StoreVal) :
    storeGet (storeSet st k v) k = some v := by
  simp [storeSet, storeGet]

lemma storeGet_filter_ne (k k2 : String) (h : k ≠ k2) :
    ∀ st : Store,
      storeGet (st.filter (fun e => !(e.1 == k))) k2 = storeGet st k2 := by
  intro st
  induction st with
  | nil => rfl
  | cons e rest ih =>
    by_cases he : e.1 = k
    · have hb : (e.1 == k) = true := beq_iff_eq.mpr he
      have hb2 : (e.1 == k2) = false :=
        beq_eq_false_iff_ne.mpr (fun hc => h (he ▸ hc ▸ rfl))
      simp only [List.filter_cons, hb, Bool.not_true, Bool.false_eq_true,
        if_false, storeGet, hb2, ih]
    · have hb : (e.1 == k) = false := beq_eq_false_iff_ne.mpr he
      simp only [List.filter_cons, hb, Bool.not_false, if_true, storeGet, ih]

lemma storeGet_set_ne (st : Store) (k k2 : String) (v : StoreVal)
    (h : k ≠ k2) :
    storeGet (storeSet st k v) k2 = storeGet st k2 := by
  unfold storeSet
  rw [storeGet]
  rw [if_neg (by simpa using fun hc => h hc)]
  exact storeGet_filter_ne k k2 h st

lemma payloadKey_ne_indexKey (id : String) :
    libraryDataKeyPre ++ id ≠ libraryIndexKey := by
  intro h
  have h2 := congrArg (fun s : String => s.data.take 20) h
  simp only [String.data_append] at h2
  rw [List.take_left' (by decide)] at h2
  exact absurd h2 (by decide)

/-- Claim C9: under a quota oracle, saveToLibrary writes the payload
first and commits the index only after the payload write succeeds; if
the payload write is rejected, nothing changes and the StorageFull
banner is reported; if the index write is rejected, the index key and
the in-memory index mirror are unchanged and the banner is reported;
on success both are written; and in every outcome each entry of the
stored index has a payload, so no dangling index entry is created. -/
theorem c9_save_atomic (fits : Store → String → StoreVal → Bool)
    (st : SaveState) (newId : String) (wbs : List WhiteboardData)
    (ch : List ChatMessage) (pgs : List PlaygroundCode) (th : AppTheme)
    (mo : GeminiModel) (now : Int)
    (hname : (jsTrim st.saveName).isEmpty = false)
    (hss : ∀ meta ∈ st.savedSessions,
      (storeGet st.store (libraryDataKeyPre ++ meta.id)).isSome = true)
    (hinv : ∀ l, storeGet st.store libraryIndexKey = some (.index l) →
      ∀ meta ∈ l,
        (storeGet st.store (libraryDataKeyPre ++ meta.id)).isSome = true) :
    let sessionData : SessionData :=
      { whiteboards := wbs, chatHistory := ch, playgrounds := pgs
        theme := th, model := mo }
    let metadata : SavedSessionMetadata :=
      { id := newId, name := jsTrim st.saveName
        group := if (jsTrim st.saveGroup).isEmpty then none
                 else some (jsTrim st.saveGroup)
        timestamp := now, topicCount := wbs.length }
    let payloadKey := libraryDataKeyPre ++ newId
    let res := saveToLibrary fits st newId wbs ch pgs th mo now
    (fits st.store payloadKey (.payload sessionData) = false →
      res = { st with
              error := some "Storage full. Cannot save session locally." })
    ∧ (fits st.store payloadKey (.payload sessionData) = true →
       fits (storeSet st.store payloadKey (.payload sessionData))
           libraryIndexKey
           (.index (st.savedSessions ++ [metadata])) = false →
       res.store = storeSet st.store payloadKey (.payload sessionData)
       ∧ storeGet res.store libraryIndexKey =
           storeGet st.store libraryIndexKey
       ∧ res.savedSessions = st.savedSessions
       ∧ res.error = some "Storage full. Cannot save session locally.")
    ∧ (fits st.store payloadKey (.payload sessionData) = true →
       fits (storeSet st.store payloadKey (.payload sessionData))
           libraryIndexKey
           (.index (st.savedSessions ++ [metadata])) = true →
       res.store = storeSet
           (storeSet st.store payloadKey (.payload sessionData))
           libraryIndexKey (.index (st.savedSessions ++ [metadata]))
       ∧ res.savedSessions = st.savedSessions ++ [metadata]
       ∧ res.error = st.error)
    ∧ (∀ l, storeGet res.store libraryIndexKey = some (.index l) →
        ∀ meta ∈ l,
          (storeGet res.store (libraryDataKeyPre ++ meta.id)).isSome
            = true) := by
  intro sessionData metadata payloadKey res
  have hres : res = saveToLibrary fits st newId wbs ch pgs th mo now := rfl
  unfold saveToLibrary at hres
  rw [if_neg (by rw [hname]; exact Bool.false_ne_true)] at hres
  by_cases h1 : fits st.store payloadKey (.payload sessionData) = true
  · rw [if_pos h1] at hres
    by_cases h2 : fits (storeSet st.store payloadKey
        (.payload sessionData)) libraryIndexKey
        (.index (st.savedSessions ++ [metadata])) = true
    · rw [if_pos h2] at hres
      refine ⟨fun hcontra => absurd h1 (by rw [hcontra]; exact
        Bool.false_ne_true), ?_, ?_, ?_⟩
      · intro _ hcontra
        exact absurd h2 (by rw [hcontra]; exact Bool.false_ne_true)
      · intro _ _
        rw [hres]
        exact ⟨rfl, rfl, rfl⟩
      · intro l hl meta hmeta
        rw [hres] at hl
        simp only at hl
        rw [storeGet_set_eq] at hl
        have hli := Option.some.inj hl
        injection hli with hli2
        subst hli2
        rw [hres]
        simp only
        rcases List.mem_append.mp hmeta with hm1 | hm2
        · have hbase := hss meta hm1
          have hne1 : libraryIndexKey ≠ libraryDataKeyPre ++ meta.id :=
            fun hc => payloadKey_ne_indexKey meta.id hc.symm
          rw [storeGet_set_ne _ _ _ _ hne1]
          by_cases hk : payloadKey = libraryDataKeyPre ++ meta.id
          · rw [← hk, storeGet_set_eq]
            rfl
          · rw [storeGet_set_ne _ _ _ _ hk]
            exact hbase
        · rcases List.mem_singleton.mp hm2 with rfl
          have hne1 : libraryIndexKey ≠
              libraryDataKeyPre ++ metadata.id :=
            fun hc => payloadKey_ne_indexKey metadata.id hc.symm
          rw [storeGet_set_ne _ _ _ _ hne1]
          have hpk : libraryDataKeyPre ++ metadata.id = payloadKey := rfl
          rw [hpk, storeGet_set_eq]
          rfl
    · rw [if_neg h2] at hres
      refine ⟨fun hcontra => absurd h1 (by rw [hcontra]; exact
        Bool.false_ne_true), ?_, ?_, ?_⟩
      · intro _ _
        rw [hres]
        refine ⟨rfl, ?_, rfl, rfl⟩
        exact storeGet_set_ne _ _ _ _ (payloadKey_ne_indexKey newId)
      · intro _ hcontra
        exact absurd hcontra h2
      · intro l hl meta hmeta
        rw [hres] at hl
        simp only at hl
        rw [storeGet_set_ne _ _ _ _ (payloadKey_ne_indexKey newId)] at hl
        have hbase := hinv l hl meta hmeta
        rw [hres]
        simp only
        by_cases hk : payloadKey = libraryDataKeyPre ++ meta.id
        · rw [← hk, storeGet_set_eq]
          rfl
        · rw [storeGet_set_ne _ _ _ _ hk]
          exact hbase
  · rw [if_neg h1] at hres
    have h1f : fits st.store payloadKey (.payload sessionData) = false :=
      Bool.eq_false_iff.mpr h1
    refine ⟨?_, ?_, ?_, ?_⟩
    · intro _
      rw [hres]
    · intro hcontra _
      exact absurd hcontra (by rw [h1f]; exact Bool.false_ne_true)
    · intro hcontra _
      exact absurd hcontra (by rw [h1f]; exact Bool.false_ne_true)
    · intro l hl meta hmeta
      rw [hres] at hl ⊢
      exact hinv l hl meta hmeta

/-- Witness for c9_save_atomic under an oracle that rejects the index
write. -/
theorem c9_save_atomic_witness :
    let sessionData : SessionData :=
      { whiteboards := [], chatHistory := [], playgrounds := []
        theme := "th", model := "mo" }
    let metadata : SavedSessionMetadata :=
      { id := "id1", name := jsTrim c9st.saveName
        group := if (jsTrim c9st.saveGroup).isEmpty then none
                 else some (jsTrim c9st.saveGroup)
        timestamp := 11, topicCount := ([] : List WhiteboardData).length }
    let payloadKey := libraryDataKeyPre ++ "id1"
    let res := saveToLibrary c9fits c9st "id1" [] [] [] "th" "mo" 11
    (c9fits c9st.store payloadKey (.payload sessionData) = false →
      res = { c9st with
              error := some "Storage full. Cannot save session locally." })
    ∧ (c9fits c9st.store payloadKey (.payload sessionData) = true →
       c9fits (storeSet c9st.store payloadKey (.payload sessionData))
           libraryIndexKey
           (.index (c9st.savedSessions ++ [metadata])) = false →
       res.store = storeSet c9st.store payloadKey (.payload sessionData)
       ∧ storeGet res.store libraryIndexKey =
           storeGet c9st.store libraryIndexKey
       ∧ res.savedSessions = c9st.savedSessions
       ∧ res.error = some "Storage full. Cannot save session locally.")
    ∧ (c9fits c9st.store payloadKey (.payload sessionData) = true →
       c9fits (storeSet c9st.store payloadKey (.payload sessionData))
           libraryIndexKey
           (.index (c9st.savedSessions ++ [metadata])) = true →
       res.store = storeSet
           (storeSet c9st.store payloadKey (.payload sessionData))
           libraryIndexKey (.index (c9st.savedSessions ++ [metadata]))
       ∧ res.savedSessions = c9st.savedSessions ++ [metadata]
       ∧ res.error = c9st.error)
    ∧ (∀ l, storeGet res.store libraryIndexKey = some (.index l) →
        ∀ meta ∈ l,
          (storeGet res.store (libraryDataKeyPre ++ meta.id)).isSome
            = true) :=
  c9_save_atomic c9fits c9st "id1" [] [] [] "th" "mo" 11
    (by decide)
    (by intro meta hm; cases hm)
    (by intro l hl; cases hl)

/-! ## Claim C2 -/

lemma addSession_keys (root : String) (wbs : List WhiteboardData)
    (ch : List ChatMessage) (pgs : List PlaygroundCode) (th : AppTheme)
    (mo : GeminiModel) (t : Int) :
    (addSessionToZip root wbs ch pgs th mo t).map Prod.fst =
      wbs.map (fun wb => root ++ ("whiteboards/" ++ wbFileName wb)) ++
      pgs.map (fun pg => root ++ ("playgrounds/" ++ pgFileName pg)) ++
      [root ++ "session_manifest.json"] := by
  unfold addSessionToZip
  simp only [List.map_append, List.map_map]
  rfl

lemma addSession_keys_prefixed (root : String) (wbs : List WhiteboardData)
    (ch : List ChatMessage) (pgs : List PlaygroundCode) (th : AppTheme)
    (mo : GeminiModel) (t : Int) :
    ∀ p ∈ (addSessionToZip root wbs ch pgs th mo t).map Prod.fst,
      ∃ tail, p = root ++ tail := by
  intro p hp
  rw [addSession_keys] at hp
  rcases List.mem_append.mp hp with hp1 | hp2
  · rcases List.mem_append.mp hp1 with hp3 | hp4
    · rcases List.mem_map.mp hp3 with ⟨wb, _, rfl⟩
      exact ⟨_, rfl⟩
    · rcases List.mem_map.mp hp4 with ⟨pg, _, rfl⟩
      exact ⟨_, rfl⟩
  · rcases List.mem_singleton.mp hp2 with rfl
    exact ⟨_, rfl⟩

lemma wb_key_getLast (root : String) (wb : WhiteboardData) :
    (root ++ ("whiteboards/" ++ wbFileName wb)).data.getLast? =
      some 'g' := by
  apply data_getLast?_append
  apply data_getLast?_append
  unfold wbFileName
  apply data_getLast?_append
  decide

lemma pg_key_getLast (root : String) (pg : PlaygroundCode) :
    (root ++ ("playgrounds/" ++ pgFileName pg)).data.getLast? =
      some 'l' := by
  apply data_getLast?_append
  apply data_getLast?_append
  unfold pgFileName
  apply data_getLast?_append
  decide

lemma addSession_manifest_filter (root : String)
    (wbs : List WhiteboardData) (ch : List ChatMessage)
    (pgs : List PlaygroundCode) (th : AppTheme) (mo : GeminiModel)
    (t : Int) :
    ((addSessionToZip root wbs ch pgs th mo t).map Prod.fst).filter
        (fun p => strHasEnd p "session_manifest.json") =
      [root ++ "session_manifest.json"] := by
  rw [addSession_keys, List.filter_append, List.filter_append]
  have hw : (wbs.map
      (fun wb => root ++ ("whiteboards/" ++ wbFileName wb))).filter
      (fun p => strHasEnd p "session_manifest.json") = [] := by
    rw [List.filter_eq_nil_iff]
    intro p hp
    rcases List.mem_map.mp hp with ⟨wb, _, rfl⟩
    rw [strHasEnd_false_of_getLast _ _ 'g' 'n' (wb_key_getLast root wb)
      (by decide) (by decide)]
    exact Bool.false_ne_true
  have hg : (pgs.map
      (fun pg => root ++ ("playgrounds/" ++ pgFileName pg))).filter
      (fun p => strHasEnd p "session_manifest.json") = [] := by
    rw [List.filter_eq_nil_iff]
    intro p hp
    rcases List.mem_map.mp hp with ⟨pg, _, rfl⟩
    rw [strHasEnd_false_of_getLast _ _ 'l' 'n' (pg_key_getLast root pg)
      (by decide) (by decide)]
    exact Bool.false_ne_true
  rw [hw, hg]
  simp [List.filter, strHasEnd_append_self]

lemma addSession_keys_nodup (root : String) (wbs : List WhiteboardData)
    (ch : List ChatMessage) (pgs : List PlaygroundCode) (th : AppTheme)
    (mo : GeminiModel) (t : Int)
    (hw : (wbs.map wbFileName).Nodup)
    (hp : (pgs.map pgFileName).Nodup) :
    ((addSessionToZip root wbs ch pgs th mo t).map Prod.fst).Nodup := by
  rw [addSession_keys]
  have hwn : (wbs.map
      (fun wb => root ++ ("whiteboards/" ++ wbFileName wb))).Nodup := by
    have hcomp : wbs.map
        (fun wb => root ++ ("whiteboards/" ++ wbFileName wb)) =
        (wbs.map wbFileName).map
          (fun fn => root ++ ("whiteboards/" ++ fn)) := by
      rw [List.map_map]; rfl
    rw [hcomp]
    exact hw.map (fun a b hab =>
      strAppend_right_inj _ (strAppend_right_inj root hab))
  have hpn : (pgs.map
      (fun pg => root ++ ("playgrounds/" ++ pgFileName pg))).Nodup := by
    have hcomp : pgs.map
        (fun pg => root ++ ("playgrounds/" ++ pgFileName pg)) =
        (pgs.map pgFileName).map
          (fun fn => root ++ ("playgrounds/" ++ fn)) := by
      rw [List.map_map]; rfl
    rw [hcomp]
    exact hp.map (fun a b hab =>
      strAppend_right_inj _ (strAppend_right_inj root hab))
  apply List.Nodup.append
  · apply List.Nodup.append hwn hpn
    intro p hp1 hp2
    rcases List.mem_map.mp hp1 with ⟨wb, _, rfl⟩
    rcases List.mem_map.mp hp2 with ⟨pg, _, heq⟩
    exact wb_ne_pg (wbFileName wb) (pgFileName pg)
      (strAppend_right_inj root heq.symm)
  · exact List.nodup_singleton _
  · intro p hp1 hp2
    rcases List.mem_singleton.mp hp2 with rfl
    rcases List.mem_append.mp hp1 with hp3 | hp4
    · rcases List.mem_map.mp hp3 with ⟨wb, _, heq⟩
      exact wb_ne_manifest (wbFileName wb) (strAppend_right_inj root heq)
    · rcases List.mem_map.mp hp4 with ⟨pg, _, heq⟩
      exact pg_ne_manifest (pgFileName pg) (strAppend_right_inj root heq)

lemma zipGet_left_of_not_right (xs ys : Zip) (p : String)
    (h : ∀ e ∈ ys, e.1 ≠ p) : zipGet (xs ++ ys) p = zipGet xs p := by
  rw [zipGet_append, zipGet_none_of_all_ne ys p h]

lemma zipGet_right_of_some (xs ys : Zip) (p : String) (v : FileData)
    (h : zipGet ys p = some v) : zipGet (xs ++ ys) p = some v := by
  rw [zipGet_append, h]

lemma deriveNameGroup_single (f r : String)
    (hslash : '/' ∉ r.data) (hne : r.data ≠ []) :
    deriveNameGroup f (r ++ "/") = (r, none) := by
  have hr : (!r.data.isEmpty) = true := by
    cases hdata : r.data with
    | nil => exact absurd hdata hne
    | cons a l => rfl
  simp [deriveNameGroup, strSplitSlash_root r hslash, List.filter, hr]

lemma sanitize_data_ne_nil (n : String) (h : n ≠ "") :
    (sanitizeFilename n).data ≠ [] := by
  intro hd
  apply h
  apply strEq_of_data
  simp only [sanitizeFilename, strLower] at hd
  rcases List.map_eq_nil_iff.mp hd with hd2
  rcases List.map_eq_nil_iff.mp hd2 with hd3
  exact hd3

lemma ne_of_data_getLast (s1 s2 : String) (c d : Char)
    (h1 : s1.data.getLast? = some c) (h2 : s2.data.getLast? = some d)
    (hne : c ≠ d) : s1 ≠ s2 := by
  intro h
  rw [h, h2] at h1
  exact hne (Option.some.inj h1).symm

lemma slashfree_ne_sep (m a u : String) (hm : '/' ∉ m.data) :
    m ≠ a ++ "/" ++ u := by
  intro h
  apply hm
  rw [h]
  rw [String.data_append, String.data_append]
  refine List.mem_append.mpr (Or.inl (List.mem_append.mpr (Or.inr ?_)))
  exact List.mem_singleton.mpr rfl

lemma underscore_shift_ne (s r1 lit r2 : String) (hs : '/' ∉ s.data)
    (hu : '_' ∉ lit.data) (hsl : '/' ∈ lit.data) :
    s ++ "_" ++ r1 ≠ lit ++ r2 := by
  intro h
  have hd := congrArg String.data h
  simp only [String.data_append] at hd
  rw [List.append_assoc] at hd
  rw [List.singleton_append] at hd
  by_cases hlen : s.data.length < lit.data.length
  · have h1 : (s.data ++ '_' :: r1.data)[s.data.length]? = some '_' := by
      rw [List.getElem?_append_right (Nat.le_refl _)]
      simp
    rw [hd] at h1
    rw [List.getElem?_append_left hlen] at h1
    rcases List.getElem?_eq_some_iff.mp h1 with ⟨hb, hval⟩
    exact hu (hval ▸ List.getElem_mem hb)
  · push_neg at hlen
    rcases List.getElem_of_mem hsl with ⟨j, hj, hjv⟩
    have h1 : (lit.data ++ r2.data)[j]? = some '/' := by
      rw [List.getElem?_append_left hj, List.getElem?_eq_getElem hj, hjv]
    rw [← hd] at h1
    have hjs : j < s.data.length := lt_of_lt_of_le hj hlen
    rw [List.getElem?_append_left hjs] at h1
    rcases List.getElem?_eq_some_iff.mp h1 with ⟨hb, hval⟩
    exact hs (hval ▸ List.getElem_mem hb)

lemma wbFileName_getLast (wb : WhiteboardData) :
    (wbFileName wb).data.getLast? = some 'g' := by
  unfold wbFileName
  exact data_getLast?_append _ ".svg" 'g' (by decide)

lemma pgFileName_getLast (pg : PlaygroundCode) :
    (pgFileName pg).data.getLast? = some 'l' := by
  unfold pgFileName
  exact data_getLast?_append _ ".html" 'l' (by decide)

lemma wbFileName_assoc (wb : WhiteboardData) :
    wbFileName wb =
      sanitizeFilename wb.topic ++ "_" ++ (strTakePre wb.id 6 ++ ".svg") := by
  unfold wbFileName
  rw [String.append_assoc]

lemma pgFileName_assoc (pg : PlaygroundCode) :
    pgFileName pg =
      sanitizeFilename pg.description ++ "_" ++ (pg.id ++ ".html") := by
  unfold pgFileName
  rw [String.append_assoc]

lemma addSession_keys_shape (root : String) (wbs : List WhiteboardData)
    (ch : List ChatMessage) (pgs : List PlaygroundCode) (th : AppTheme)
    (mo : GeminiModel) (t : Int) :
    ∀ p ∈ (addSessionToZip root wbs ch pgs th mo t).map Prod.fst,
      ∃ tail, p = root ++ tail ∧
        (tail = "session_manifest.json" ∨
         (∃ wb : WhiteboardData, tail = "whiteboards/" ++ wbFileName wb) ∨
         (∃ pg : PlaygroundCode,
           tail = "playgrounds/" ++ pgFileName pg)) := by
  intro p hp
  rw [addSession_keys] at hp
  rcases List.mem_append.mp hp with hp1 | hp2
  · rcases List.mem_append.mp hp1 with hp3 | hp4
    · rcases List.mem_map.mp hp3 with ⟨wb, _, rfl⟩
      exact ⟨_, rfl, Or.inr (Or.inl ⟨wb, rfl⟩)⟩
    · rcases List.mem_map.mp hp4 with ⟨pg, _, rfl⟩
      exact ⟨_, rfl, Or.inr (Or.inr ⟨pg, rfl⟩)⟩
  · rcases List.mem_singleton.mp hp2 with rfl
    exact ⟨_, rfl, Or.inl rfl⟩

lemma session_tail_ne_shift (n tA tB : String) (hn : '/' ∉ n.data)
    (hA : tA = "session_manifest.json" ∨
      (∃ wb : WhiteboardData, tA = "whiteboards/" ++ wbFileName wb) ∨
      (∃ pg : PlaygroundCode, tA = "playgrounds/" ++ pgFileName pg))
    (hB : tB = "session_manifest.json" ∨
      (∃ wb : WhiteboardData, tB = "whiteboards/" ++ wbFileName wb) ∨
      (∃ pg : PlaygroundCode, tB = "playgrounds/" ++ pgFileName pg)) :
    tA ≠ n ++ "/" ++ tB := by
  intro h
  rcases hA with rfl | ⟨wb, rfl⟩ | ⟨pg, rfl⟩
  · exact slashfree_ne_sep _ n tB (by decide) h
  · have hd := congrArg String.data h
    have hL : ("whiteboards/" ++ wbFileName wb).data =
        "whiteboards".data ++ '/' :: (wbFileName wb).data := by
      rw [String.data_append]
      have hlit : ("whiteboards/" : String).data =
          "whiteboards".data ++ ['/'] := by decide
      rw [hlit, List.append_assoc, List.singleton_append]
    have hR : (n ++ "/" ++ tB).data = n.data ++ '/' :: tB.data := by
      rw [String.data_append, String.data_append]
      rw [List.append_assoc, List.singleton_append]
    rw [hL, hR] at hd
    have hsep := sep_append_inj (by decide) hn hd
    have hfn : wbFileName wb = tB := strEq_of_data hsep.2
    rcases hB with rfl | ⟨wb2, rfl⟩ | ⟨pg2, rfl⟩
    · exact ne_of_data_getLast _ _ 'g' 'n' (wbFileName_getLast wb)
        (by decide) (by decide) hfn
    · rw [wbFileName_assoc] at hfn
      exact underscore_shift_ne (sanitizeFilename wb.topic) _
        "whiteboards/" _ (sanitize_no_slash _) (by decide) (by decide) hfn
    · rw [wbFileName_assoc] at hfn
      exact underscore_shift_ne (sanitizeFilename wb.topic) _
        "playgrounds/" _ (sanitize_no_slash _) (by decide) (by decide) hfn
  · have hd := congrArg String.data h
    have hL : ("playgrounds/" ++ pgFileName pg).data =
        "playgrounds".data ++ '/' :: (pgFileName pg).data := by
      rw [String.data_append]
      have hlit : ("playgrounds/" : String).data =
          "playgrounds".data ++ ['/'] := by decide
      rw [hlit, List.append_assoc, List.singleton_append]
    have hR : (n ++ "/" ++ tB).data = n.data ++ '/' :: tB.data := by
      rw [String.data_append, String.data_append]
      rw [List.append_assoc, List.singleton_append]
    rw [hL, hR] at hd
    have hsep := sep_append_inj (by decide) hn hd
    have hfn : pgFileName pg = tB := strEq_of_data hsep.2
    rcases hB with rfl | ⟨wb2, rfl⟩ | ⟨pg2, rfl⟩
    · exact ne_of_data_getLast _ _ 'l' 'n' (pgFileName_getLast pg)
        (by decide) (by decide) hfn
    · rw [pgFileName_assoc] at hfn
      exact underscore_shift_ne (sanitizeFilename pg.description) _
        "whiteboards/" _ (sanitize_no_slash _) (by decide) (by decide) hfn
    · rw [pgFileName_assoc] at hfn
      exact underscore_shift_ne (sanitizeFilename pg.description) _
        "playgrounds/" _ (sanitize_no_slash _) (by decide) (by decide) hfn

lemma folder_collision_asym (nA gB nB tA tB : String)
    (hnA : '/' ∉ nA.data) (hgB : '/' ∉ gB.data) (hnB : '/' ∉ nB.data)
    (hA : tA = "session_manifest.json" ∨
      (∃ wb : WhiteboardData, tA = "whiteboards/" ++ wbFileName wb) ∨
      (∃ pg : PlaygroundCode, tA = "playgrounds/" ++ pgFileName pg))
    (hB : tB = "session_manifest.json" ∨
      (∃ wb : WhiteboardData, tB = "whiteboards/" ++ wbFileName wb) ∨
      (∃ pg : PlaygroundCode, tB = "playgrounds/" ++ pgFileName pg))
    (h : (nA ++ "/") ++ tA = ((gB ++ "/" ++ nB) ++ "/") ++ tB) :
    False := by
  have hd := congrArg String.data h
  simp only [String.data_append, List.append_assoc,
    List.singleton_append] at hd
  have hsep := sep_append_inj hnA hgB hd
  have htA : tA = nB ++ "/" ++ tB := by
    apply strEq_of_data
    rw [String.data_append, String.data_append, List.append_assoc,
      List.singleton_append]
    exact hsep.2
  exact session_tail_ne_shift nB tA tB hnB hA hB htA

lemma cross_folder_disjoint2 (A B : NamedSession) (tE tF : Int)
    (hab : sessionFolderPath A ≠ sessionFolderPath B) :
    List.Disjoint
      ((addSessionToZip (sessionFolderPath A ++ "/") A.whiteboards
        A.chatHistory A.playgrounds A.theme A.model tE).map Prod.fst)
      ((addSessionToZip (sessionFolderPath B ++ "/") B.whiteboards
        B.chatHistory B.playgrounds B.theme B.model tF).map
        Prod.fst) := by
  intro p hpA hpB
  rcases addSession_keys_shape _ _ _ _ _ _ _ p hpA with ⟨tA, rfl, hA⟩
  rcases addSession_keys_shape _ _ _ _ _ _ _ _ hpB with ⟨tB, heq, hB⟩
  cases hga : A.group with
  | none =>
    have hfA : sessionFolderPath A = sanitizeFilename A.name := by
      unfold sessionFolderPath
      rw [hga]
    cases hgb : B.group with
    | none =>
      have hfB : sessionFolderPath B = sanitizeFilename B.name := by
        unfold sessionFolderPath
        rw [hgb]
      rw [hfA, hfB] at heq
      have hd := congrArg String.data heq
      simp only [String.data_append, List.append_assoc,
        List.singleton_append] at hd
      have hsep := sep_append_inj (sanitize_no_slash A.name)
        (sanitize_no_slash B.name) hd
      exact hab (by rw [hfA, hfB]; exact strEq_of_data hsep.1)
    | some g =>
      have hfB : sessionFolderPath B =
          sanitizeFilename g ++ "/" ++ sanitizeFilename B.name := by
        unfold sessionFolderPath
        rw [hgb]
      rw [hfA, hfB] at heq
      exact folder_collision_asym (sanitizeFilename A.name)
        (sanitizeFilename g) (sanitizeFilename B.name) tA tB
        (sanitize_no_slash _) (sanitize_no_slash _) (sanitize_no_slash _)
        hA hB heq
  | some g =>
    have hfA : sessionFolderPath A =
        sanitizeFilename g ++ "/" ++ sanitizeFilename A.name := by
      unfold sessionFolderPath
      rw [hga]
    cases hgb : B.group with
    | none =>
      have hfB : sessionFolderPath B = sanitizeFilename B.name := by
        unfold sessionFolderPath
        rw [hgb]
      rw [hfA, hfB] at heq
      exact folder_collision_asym (sanitizeFilename B.name)
        (sanitizeFilename g) (sanitizeFilename A.name) tB tA
        (sanitize_no_slash _) (sanitize_no_slash _) (sanitize_no_slash _)
        hB hA heq.symm
    | some g2 =>
      have hfB : sessionFolderPath B =
          sanitizeFilename g2 ++ "/" ++ sanitizeFilename B.name := by
        unfold sessionFolderPath
        rw [hgb]
      rw [hfA, hfB] at heq
      have hd := congrArg String.data heq
      simp only [String.data_append, List.append_assoc,
        List.singleton_append] at hd
      have hsep1 := sep_append_inj (sanitize_no_slash g)
        (sanitize_no_slash g2) hd
      have hsep2 := sep_append_inj (sanitize_no_slash A.name)
        (sanitize_no_slash B.name) hsep1.2
      apply hab
      rw [hfA, hfB]
      have hg : sanitizeFilename g = sanitizeFilename g2 :=
        strEq_of_data hsep1.1
      have hnm : sanitizeFilename A.name = sanitizeFilename B.name :=
        strEq_of_data hsep2.1
      rw [hg, hnm]

lemma splitSlash_sep {g : List Char} (hg : '/' ∉ g) (rest : List Char) :
    splitSlash (g ++ '/' :: rest) = g :: splitSlash rest := by
  induction g with
  | nil => simp [splitSlash]
  | cons c cs ih =>
    have hc : (c == '/') = false :=
      beq_eq_false_iff_ne.mpr (fun hx => hg (hx ▸ List.mem_cons_self c cs))
    have ihx := ih (fun hx => hg (List.mem_cons_of_mem _ hx))
    simp only [List.cons_append, splitSlash, hc, Bool.false_eq_true,
      if_false, List.append_eq, ihx]

lemma deriveNameGroup_double (f g n : String)
    (hgS : '/' ∉ g.data) (hnS : '/' ∉ n.data)
    (hgN : g.data ≠ []) (hnN : n.data ≠ []) :
    deriveNameGroup f ((g ++ "/" ++ n) ++ "/") = (n, some g) := by
  have hsplit : strSplitSlash ((g ++ "/" ++ n) ++ "/") = [g, n, ""] := by
    unfold strSplitSlash
    have hd : ((g ++ "/" ++ n) ++ "/").data
        = g.data ++ '/' :: (n.data ++ ['/']) := by
      simp only [String.data_append, List.append_assoc]
      rfl
    rw [hd, splitSlash_sep hgS, splitSlash_append_slash hnS]
    rfl
  have hgB : (!g.data.isEmpty) = true := by
    cases hdata : g.data with
    | nil => exact absurd hdata hgN
    | cons a l => rfl
  have hnB : (!n.data.isEmpty) = true := by
    cases hdata : n.data with
    | nil => exact absurd hdata hnN
    | cons a l => rfl
  simp [deriveNameGroup, hsplit, List.filter, hgB, hnB, joinSlash]

lemma folder_no_dot (s : NamedSession) :
    '.' ∉ (sessionFolderPath s).data := by
  unfold sessionFolderPath
  cases s.group with
  | none => exact sanitize_no_dot s.name
  | some g =>
    intro hmem
    simp only [String.data_append] at hmem
    rcases List.mem_append.mp hmem with h1 | h2
    · rcases List.mem_append.mp h1 with h3 | h4
      · exact sanitize_no_dot g h3
      · simp at h4
    · exact sanitize_no_dot s.name h2

lemma folder_no_slash_of_none (s : NamedSession) (h : s.group = none) :
    '/' ∉ (sessionFolderPath s).data := by
  unfold sessionFolderPath
  rw [h]
  exact sanitize_no_slash s.name

lemma ne_all_of_disjoint_mem (zA zB : Zip) (k : String)
    (hdj : List.Disjoint (zA.map Prod.fst) (zB.map Prod.fst))
    (hk : k ∈ zA.map Prod.fst) :
    ∀ e ∈ zB, e.1 ≠ k := by
  intro e he heq
  exact hdj hk (heq ▸ List.mem_map_of_mem Prod.fst he)

lemma manifest_key_mem (root : String) (wbs : List WhiteboardData)
    (ch : List ChatMessage) (pgs : List PlaygroundCode) (th : AppTheme)
    (mo : GeminiModel) (t : Int) :
    (root ++ "session_manifest.json") ∈
      (addSessionToZip root wbs ch pgs th mo t).map Prod.fst := by
  rw [addSession_keys]
  exact List.mem_append.mpr (Or.inr (List.mem_singleton.mpr rfl))

lemma wb_key_mem (root : String) (wbs : List WhiteboardData)
    (ch : List ChatMessage) (pgs : List PlaygroundCode) (th : AppTheme)
    (mo : GeminiModel) (t : Int) (wb : WhiteboardData) (hm : wb ∈ wbs) :
    (root ++ ("whiteboards/" ++ wbFileName wb)) ∈
      (addSessionToZip root wbs ch pgs th mo t).map Prod.fst := by
  rw [addSession_keys]
  exact List.mem_append.mpr (Or.inl (List.mem_append.mpr (Or.inl
    (List.mem_map_of_mem _ hm))))

lemma pg_key_mem (root : String) (wbs : List WhiteboardData)
    (ch : List ChatMessage) (pgs : List PlaygroundCode) (th : AppTheme)
    (mo : GeminiModel) (t : Int) (pg : PlaygroundCode) (hm : pg ∈ pgs) :
    (root ++ ("playgrounds/" ++ pgFileName pg)) ∈
      (addSessionToZip root wbs ch pgs th mo t).map Prod.fst := by
  rw [addSession_keys]
  exact List.mem_append.mpr (Or.inl (List.mem_append.mpr (Or.inr
    (List.mem_map_of_mem _ hm))))

lemma import_two_sessions_rooted (a b f : String) (tE tI : Int)
    (haD : '.' ∉ a.data) (hbD : '.' ∉ b.data)
    (wA : List WhiteboardData) (cA : List ChatMessage)
    (pA : List PlaygroundCode) (thA : AppTheme) (moA : GeminiModel)
    (wB : List WhiteboardData) (cB : List ChatMessage)
    (pB : List PlaygroundCode) (thB : AppTheme) (moB : GeminiModel)
    (hwA : (wA.map wbFileName).Nodup) (hpA : (pA.map pgFileName).Nodup)
    (hwB : (wB.map wbFileName).Nodup) (hpB : (pB.map pgFileName).Nodup)
    (htsA : ∀ pg ∈ pA, pg.timestamp ≠ 0)
    (htsB : ∀ pg ∈ pB, pg.timestamp ≠ 0)
    (hdj : List.Disjoint
      ((addSessionToZip (a ++ "/") wA cA pA thA moA tE).map Prod.fst)
      ((addSessionToZip (b ++ "/") wB cB pB thB moB tE).map Prod.fst))
    (nmA nmB : String) (grA grB : Option String)
    (hderA : deriveNameGroup f (a ++ "/") = (nmA, grA))
    (hderB : deriveNameGroup f (b ++ "/") = (nmB, grB)) :
    importLibraryFromZip f
        (addSessionToZip (a ++ "/") wA cA pA thA moA tE ++
          addSessionToZip (b ++ "/") wB cB pB thB moB tE) tI =
      .ok [
        { whiteboards := wA, chatHistory := cA,
          playgrounds := pA.map importRebuiltPg,
          theme := thA, model := moA, name := some nmA, group := grA },
        { whiteboards := wB, chatHistory := cB,
          playgrounds := pB.map importRebuiltPg,
          theme := thB, model := moB, name := some nmB,
          group := grB }] := by
  have hkeys : ((addSessionToZip (a ++ "/") wA cA pA thA moA tE ++
      addSessionToZip (b ++ "/") wB cB pB thB moB tE).map Prod.fst) =
      (addSessionToZip (a ++ "/") wA cA pA thA moA tE).map Prod.fst ++
      (addSessionToZip (b ++ "/") wB cB pB thB moB tE).map Prod.fst :=
    List.map_append _ _ _
  have hnodup : (((addSessionToZip (a ++ "/") wA cA pA thA moA tE ++
      addSessionToZip (b ++ "/") wB cB pB thB moB tE)).map
      Prod.fst).Nodup := by
    rw [hkeys]
    exact List.Nodup.append
      (addSession_keys_nodup _ _ _ _ _ _ _ hwA hpA)
      (addSession_keys_nodup _ _ _ _ _ _ _ hwB hpB)
      hdj
  have hzipKeys : zipKeys (addSessionToZip (a ++ "/") wA cA pA thA moA tE
      ++ addSessionToZip (b ++ "/") wB cB pB thB moB tE) =
      (addSessionToZip (a ++ "/") wA cA pA thA moA tE).map Prod.fst ++
      (addSessionToZip (b ++ "/") wB cB pB thB moB tE).map Prod.fst := by
    unfold zipKeys
    rw [dedupKeys_eq_self _ [] hnodup (fun p _ => List.not_mem_nil p)]
    exact hkeys
  have hmp : (zipKeys (addSessionToZip (a ++ "/") wA cA pA thA moA tE
      ++ addSessionToZip (b ++ "/") wB cB pB thB moB tE)).filter
      (fun p => strHasEnd p "session_manifest.json") =
      [(a ++ "/") ++ "session_manifest.json",
       (b ++ "/") ++ "session_manifest.json"] := by
    rw [hzipKeys, List.filter_append, addSession_manifest_filter,
      addSession_manifest_filter]
    rfl
  have hextA : extractSessionFromFolder
      (addSessionToZip (a ++ "/") wA cA pA thA moA tE ++
        addSessionToZip (b ++ "/") wB cB pB thB moB tE) (a ++ "/") tI =
      .ok { whiteboards := wA, chatHistory := cA,
            playgrounds := pA.map importRebuiltPg,
            theme := thA, model := moA, name := none, group := none } := by
    apply extract_of_lookups _ _ _ _ _ _ _ _ tE
    · rw [zipGet_left_of_not_right _ _ _
        (ne_all_of_disjoint_mem _ _ _ hdj
          (manifest_key_mem _ _ _ _ _ _ _))]
      exact zipGet_addSession_manifest _ _ _ _ _ _ _
    · intro wb hm
      rw [zipGet_left_of_not_right _ _ _
        (ne_all_of_disjoint_mem _ _ _ hdj
          (wb_key_mem _ _ _ _ _ _ _ wb hm))]
      exact zipGet_addSession_wb _ _ _ _ _ _ _ hwA wb hm
    · intro pg hm
      rw [zipGet_left_of_not_right _ _ _
        (ne_all_of_disjoint_mem _ _ _ hdj
          (pg_key_mem _ _ _ _ _ _ _ pg hm))]
      exact zipGet_addSession_pg _ _ _ _ _ _ _ hpA pg hm
    · exact htsA
  have hextB : extractSessionFromFolder
      (addSessionToZip (a ++ "/") wA cA pA thA moA tE ++
        addSessionToZip (b ++ "/") wB cB pB thB moB tE) (b ++ "/") tI =
      .ok { whiteboards := wB, chatHistory := cB,
            playgrounds := pB.map importRebuiltPg,
            theme := thB, model := moB, name := none, group := none } := by
    apply extract_of_lookups _ _ _ _ _ _ _ _ tE
    · exact zipGet_right_of_some _ _ _ _
        (zipGet_addSession_manifest _ _ _ _ _ _ _)
    · intro wb hm
      exact zipGet_right_of_some _ _ _ _
        (zipGet_addSession_wb _ _ _ _ _ _ _ hwB wb hm)
    · intro pg hm
      exact zipGet_right_of_some _ _ _ _
        (zipGet_addSession_pg _ _ _ _ _ _ _ hpB pg hm)
    · exact htsB
  have hrootA : strReplFirst ((a ++ "/") ++ "session_manifest.json")
      "session_manifest.json" "" = a ++ "/" :=
    strReplFirst_manifest_root a haD
  have hrootB : strReplFirst ((b ++ "/") ++ "session_manifest.json")
      "session_manifest.json" "" = b ++ "/" :=
    strReplFirst_manifest_root b hbD
  simp only [importLibraryFromZip, hmp]
  rw [if_neg (by simp)]
  simp only [importLoop, hrootA, hrootB, hextA, hextB, hderA, hderB]
  rfl

lemma deriveNameGroup_folder (f : String) (s : NamedSession)
    (hname : s.name ≠ "")
    (hgrp : ∀ g, s.group = some g → g ≠ "") :
    deriveNameGroup f (sessionFolderPath s ++ "/") =
      (sanitizeFilename s.name, s.group.map sanitizeFilename) := by
  cases hg : s.group with
  | none =>
    have hf : sessionFolderPath s = sanitizeFilename s.name := by
      unfold sessionFolderPath
      rw [hg]
    rw [hf, Option.map_none']
    exact deriveNameGroup_single f _ (sanitize_no_slash s.name)
      (sanitize_data_ne_nil s.name hname)
  | some g =>
    have hf : sessionFolderPath s =
        sanitizeFilename g ++ "/" ++ sanitizeFilename s.name := by
      unfold sessionFolderPath
      rw [hg]
    rw [hf, Option.map_some']
    exact deriveNameGroup_double f _ _ (sanitize_no_slash g)
      (sanitize_no_slash s.name)
      (sanitize_data_ne_nil g (hgrp g hg))
      (sanitize_data_ne_nil s.name hname)

/-- Claim C2 (amended): packaging two sessions, grouped or not, whose
folder paths (sanitized group, then sanitized name) differ, with
nonempty names, nonempty group names where grouped, collision-free
filenames inside each session and nonzero playground timestamps, and
then importing, yields exactly the two sessions, each with its
whiteboards, chat history, theme, model and playground contents (the
latter with status/kind rebuilt as on every import) equal to the
originals, its name the sanitized original name and its group the
sanitized original group; and the two sessions write disjoint sets of
file paths inside the package. Distinct names alone do not suffice: two
names that sanitize identically collide into one rootPath. -/
theorem c2_multi_session_isolation (A B : NamedSession) (f : String)
    (tE tI : Int)
    (hnameA : A.name ≠ "") (hnameB : B.name ≠ "")
    (hgrpA : ∀ g, A.group = some g → g ≠ "")
    (hgrpB : ∀ g, B.group = some g → g ≠ "")
    (hab : sessionFolderPath A ≠ sessionFolderPath B)
    (hwA : (A.whiteboards.map wbFileName).Nodup)
    (hpA : (A.playgrounds.map pgFileName).Nodup)
    (hwB : (B.whiteboards.map wbFileName).Nodup)
    (hpB : (B.playgrounds.map pgFileName).Nodup)
    (htsA : ∀ pg ∈ A.playgrounds, pg.timestamp ≠ 0)
    (htsB : ∀ pg ∈ B.playgrounds, pg.timestamp ≠ 0) :
    importLibraryFromZip f (exportCollectionToZip [A, B] tE) tI =
      .ok [
        { whiteboards := A.whiteboards, chatHistory := A.chatHistory,
          playgrounds := A.playgrounds.map importRebuiltPg,
          theme := A.theme, model := A.model,
          name := some (sanitizeFilename A.name),
          group := A.group.map sanitizeFilename },
        { whiteboards := B.whiteboards, chatHistory := B.chatHistory,
          playgrounds := B.playgrounds.map importRebuiltPg,
          theme := B.theme, model := B.model,
          name := some (sanitizeFilename B.name),
          group := B.group.map sanitizeFilename }]
    ∧ List.Disjoint
        ((addSessionToZip (sessionFolderPath A ++ "/") A.whiteboards
          A.chatHistory A.playgrounds A.theme A.model tE).map Prod.fst)
        ((addSessionToZip (sessionFolderPath B ++ "/") B.whiteboards
          B.chatHistory B.playgrounds B.theme B.model tE).map
          Prod.fst) := by
  have hdj := cross_folder_disjoint2 A B tE tE hab
  have hexp : exportCollectionToZip [A, B] tE =
      addSessionToZip (sessionFolderPath A ++ "/") A.whiteboards
        A.chatHistory A.playgrounds A.theme A.model tE ++
      addSessionToZip (sessionFolderPath B ++ "/") B.whiteboards
        B.chatHistory B.playgrounds B.theme B.model tE := by
    simp only [exportCollectionToZip, List.foldr_cons, List.foldr_nil,
      List.append_nil]
  constructor
  · rw [hexp]
    exact import_two_sessions_rooted (sessionFolderPath A)
      (sessionFolderPath B) f tE tI (folder_no_dot A) (folder_no_dot B)
      A.whiteboards A.chatHistory A.playgrounds A.theme A.model
      B.whiteboards B.chatHistory B.playgrounds B.theme B.model
      hwA hpA hwB hpB htsA htsB hdj
      (sanitizeFilename A.name) (sanitizeFilename B.name)
      (A.group.map sanitizeFilename) (B.group.map sanitizeFilename)
      (deriveNameGroup_folder f A hnameA hgrpA)
      (deriveNameGroup_folder f B hnameB hgrpB)
  · exact hdj

/-- Counterexample to claim C2 as stated: two sessions with distinct
names that sanitize to the same folder collide inside the package, and
the import recovers a single merged session, not two. -/
theorem c2_name_collision_counterexample :
    c2sesA.name ≠ c2sesB.name
    ∧ importLibraryFromZip "f.zip"
        (exportCollectionToZip [c2sesA, c2sesB] 0) 0 =
      .ok [{ whiteboards := [], chatHistory := [], playgrounds := [],
             theme := "u", model := "n",
             name := some "a", group := none }] := by
  refine ⟨by decide, by decide⟩

/-- Witness for c2_multi_session_isolation on two concrete sessions,
one ungrouped and one grouped. -/
theorem c2_multi_session_isolation_witness :
    importLibraryFromZip "lib.zip" (exportCollectionToZip
        [c2sesC, c2sesD] 3) 9 =
      .ok [
        { whiteboards := c2sesC.whiteboards,
          chatHistory := c2sesC.chatHistory,
          playgrounds := c2sesC.playgrounds.map importRebuiltPg,
          theme := c2sesC.theme, model := c2sesC.model,
          name := some (sanitizeFilename c2sesC.name),
          group := c2sesC.group.map sanitizeFilename },
        { whiteboards := c2sesD.whiteboards,
          chatHistory := c2sesD.chatHistory,
          playgrounds := c2sesD.playgrounds.map importRebuiltPg,
          theme := c2sesD.theme, model := c2sesD.model,
          name := some (sanitizeFilename c2sesD.name),
          group := c2sesD.group.map sanitizeFilename }]
    ∧ List.Disjoint
        ((addSessionToZip (sessionFolderPath c2sesC ++ "/")
          c2sesC.whiteboards c2sesC.chatHistory c2sesC.playgrounds
          c2sesC.theme c2sesC.model 3).map Prod.fst)
        ((addSessionToZip (sessionFolderPath c2sesD ++ "/")
          c2sesD.whiteboards c2sesD.chatHistory c2sesD.playgrounds
          c2sesD.theme c2sesD.model 3).map Prod.fst) :=
  c2_multi_session_isolation c2sesC c2sesD "lib.zip" 3 9
    (by decide) (by decide)
    (by intro g h; exact Option.noConfusion h)
    (by intro g h; injection h with h2; subst h2; decide)
    (by decide) (by decide) (by decide) (by decide) (by decide)
    (by intro pg hm; cases hm)
    (by intro pg hm; rcases List.mem_singleton.mp hm with rfl; decide)
